import Mathlib

/-!
Verification of the medication reminder backend (`backend/app.py`).

The Python source is shallowly embedded: the module-level cache dictionaries
become association lists, `datetime` instants become rational numbers measured
in minutes (on an absolute timeline for the auth caches, and as minutes since
today's midnight for the status classifier, whose scheduled instants all fall
on today), and each route handler becomes a pure function from its inputs and
the caches it touches to its response and the updated caches.  Randomness
(OTP codes, session tokens) and I/O outcomes (mail delivery) are injected as
explicit parameters.
-/

namespace Reminder

/-- Python `int()` applied to a number truncates toward zero. -/
def pyInt (q : ℚ) : Int := if 0 ≤ q then Int.floor q else Int.ceil q

theorem pyInt_intCast (n : Int) : pyInt ((n : ℚ)) = n := by
  unfold pyInt
  split
  · exact Int.floor_intCast n
  · exact Int.ceil_intCast n

/-- Python `str.lower()` (modelled characterwise via `Char.toLower`). -/
def pyLower (s : String) : String := ⟨s.toList.map Char.toLower⟩

/-- Drop leading whitespace characters. -/
def dropLeadingWs : List Char → List Char
  | [] => []
  | c :: cs => if c.isWhitespace then dropLeadingWs cs else c :: cs

/-- Python `str.strip()` (modelled as trimming ASCII whitespace at both
ends). -/
def pyStrip (s : String) : String :=
  ⟨dropLeadingWs ((dropLeadingWs s.toList.reverse).reverse)⟩

/-- Association-list model of Python dictionary read: `d[k]` / `k in d`. -/
def cacheGet {K V : Type} [DecidableEq K] : List (K × V) → K → Option V
  | [], _ => none
  | (k', v) :: c, k => if k = k' then some v else cacheGet c k

/-- Python `d[k] = v`: the key is (re)bound, all other keys keep their value. -/
def dictSet {K V : Type} [DecidableEq K] (c : List (K × V)) (k : K) (v : V) :
    List (K × V) :=
  (k, v) :: c.filter (fun p => !decide (p.1 = k))

/-- Python `del d[k]`. -/
def dictDel {K V : Type} [DecidableEq K] (c : List (K × V)) (k : K) : List (K × V) :=
  c.filter (fun p => !decide (p.1 = k))

/-- `RATE_LIMIT_REQUESTS = 5` (max requests). -/
def RATE_LIMIT_REQUESTS : Nat := 5

/-- `RATE_LIMIT_WINDOW = 300` seconds, i.e. 5 minutes on our minute timeline. -/
def RATE_LIMIT_WINDOW : ℚ := 5

/-- `OTP_EXPIRY_MINUTES = 5`. -/
def OTP_EXPIRY_MINUTES : ℚ := 5

/-- `SESSION_EXPIRY_DAYS = 30`. -/
def SESSION_EXPIRY_DAYS : Nat := 30

/-- Entry of `rate_limit_cache`: `{'count': ..., 'reset_time': ...}`. -/
structure RateLimitEntry where
  count : Nat
  reset_time : ℚ
deriving DecidableEq, Repr

abbrev RateLimitCache := List (String × RateLimitEntry)

/-- `check_rate_limit(ip)`: returns the allow/block verdict together with the
updated `rate_limit_cache` (the Python function mutates the global dict). -/
def check_rate_limit (cache : RateLimitCache) (now : ℚ) (ip : String) :
    Bool × RateLimitCache :=
  match cacheGet cache ip with
  | none => (true, dictSet cache ip ⟨1, now + RATE_LIMIT_WINDOW⟩)
  | some entry =>
    if now > entry.reset_time then
      (true, dictSet cache ip ⟨1, now + RATE_LIMIT_WINDOW⟩)
    else
      let entry' : RateLimitEntry := ⟨entry.count + 1, entry.reset_time⟩
      if entry'.count > RATE_LIMIT_REQUESTS then (false, dictSet cache ip entry')
      else (true, dictSet cache ip entry')

/-- `WEEKDAY_MAP` (German and English day tokens, 0=Monday .. 6=Sunday). -/
def WEEKDAY_MAP : List (String × Nat) :=
  [("mo", 0), ("mon", 0), ("monday", 0), ("montag", 0),
   ("di", 1), ("tue", 1), ("tuesday", 1), ("dienstag", 1),
   ("mi", 2), ("wed", 2), ("wednesday", 2), ("mittwoch", 2),
   ("do", 3), ("thu", 3), ("thursday", 3), ("donnerstag", 3),
   ("fr", 4), ("fri", 4), ("friday", 4), ("freitag", 4),
   ("sa", 5), ("sat", 5), ("saturday", 5), ("samstag", 5),
   ("so", 6), ("sun", 6), ("sunday", 6), ("sonntag", 6)]

/-- `day.lower().strip()` as applied by `is_scheduled_today`. -/
def normalizeDay (day : String) : String := pyStrip (pyLower day)

/-- `is_scheduled_today(days_config)`: `None` or the empty list mean "every
day", otherwise some listed token must name today's weekday. -/
def is_scheduled_today (days_config : Option (List String)) (today_weekday : Nat) :
    Bool :=
  match days_config with
  | none => true
  | some days =>
    if days = [] then true
    else days.any (fun day =>
      match cacheGet WEEKDAY_MAP (normalizeDay day) with
      | some w => decide (w = today_weekday)
      | none => false)

/-- A row of the `intake_log` table. `created_date` stands for
`DATE(created_at)` of the row's creation timestamp. -/
structure IntakeRecord where
  medication : String
  scheduled_time : String
  actual_time : String
  created_date : String
  status : String
deriving DecidableEq, Repr

/-- `was_taken_today(medication, scheduled_time)`: the `COUNT(*) > 0` query
over rows matching medication, scheduled time, today's date and status
`'taken'`. -/
def was_taken_today (ledger : List IntakeRecord) (today : String)
    (medication scheduled_time : String) : Bool :=
  decide (0 < ledger.countP (fun r =>
    decide (r.medication = medication ∧ r.scheduled_time = scheduled_time ∧
      r.created_date = today ∧ r.status = "taken")))

/-- `snooze_cache`: `{(medication, time): snooze_until}`. -/
abbrev SnoozeCache := List ((String × String) × ℚ)

/-- `is_snoozed(medication, scheduled_time)`: reports whether the pair is
currently snoozed and evicts an expired entry as a side effect. -/
def is_snoozed (cache : SnoozeCache) (now : ℚ) (medication scheduled_time : String) :
    Bool × SnoozeCache :=
  match cacheGet cache (medication, scheduled_time) with
  | none => (false, cache)
  | some snooze_until =>
    if now < snooze_until then (true, cache)
    else (false, dictDel cache (medication, scheduled_time))

/-- Split a character list at every `':'` (the shape `strptime('%H:%M')`
imposes on its input). -/
def splitOnColon : List Char → List (List Char)
  | [] => [[]]
  | c :: cs =>
    match splitOnColon cs with
    | [] => [[c]]
    | g :: gs => if c = ':' then [] :: g :: gs else (c :: g) :: gs

/-- One numeric field of `strptime`'s `%H` / `%M`: one or two digits whose
value stays within the directive's bound. -/
def parseField (part : List Char) (limit : Nat) : Option Nat :=
  if part = [] then none
  else if 2 < part.length then none
  else if part.all Char.isDigit then
    let v := part.foldl (fun a c => 10 * a + (c.toNat - 48)) 0
    if v ≤ limit then some v else none
  else none

/-- `datetime.strptime(s, '%H:%M')`, returning minutes since midnight;
`none` models the `ValueError` raised on malformed input. -/
def parseHM (s : String) : Option Nat :=
  match splitOnColon s.toList with
  | [h, m] =>
    match parseField h 23, parseField m 59 with
    | some hv, some mv => some (hv * 60 + mv)
    | _, _ => none
  | _ => none

/-- Hour branch `[01]?[0-9]` of the validation regex, one-character form. -/
def hourOk1 (c : Char) : Bool := c.isDigit

/-- Hour branches `[01][0-9]` and `2[0-3]` of the validation regex. -/
def hourOk2 (c1 c2 : Char) : Bool :=
  (decide (c1 = '0' ∨ c1 = '1') && c2.isDigit) ||
  (decide (c1 = '2') && decide ('0' ≤ c2 ∧ c2 ≤ '3'))

/-- Minute part `[0-5][0-9]` of the validation regex. -/
def minuteOk (c1 c2 : Char) : Bool := decide ('0' ≤ c1 ∧ c1 ≤ '5') && c2.isDigit

/-- `re.match(r'^([01]?[0-9]|2[0-3]):[0-5][0-9]$', s)`: Python's `$` also
matches just before a single newline at the end of the string. -/
def timeRegexMatch (s : String) : Bool :=
  match s.toList with
  | [c1, ':', c2, c3] => hourOk1 c1 && minuteOk c2 c3
  | [c1, ':', c2, c3, '\n'] => hourOk1 c1 && minuteOk c2 c3
  | [c1, c2, ':', c3, c4] => hourOk2 c1 c2 && minuteOk c3 c4
  | [c1, c2, ':', c3, c4, '\n'] => hourOk2 c1 c2 && minuteOk c3 c4
  | _ => false

/-- `validate_medication_input(medication, scheduled_time)`. -/
def validate_medication_input (medication scheduled_time : String) :
    Bool × Option String :=
  if medication = "" then (false, some "Invalid medication name")
  else if 100 < medication.length then (false, some "Medication name too long")
  else if scheduled_time = "" then (false, some "Invalid time")
  else if timeRegexMatch scheduled_time then (true, none)
  else (false, some "Invalid time format (use HH:MM)")

/-- `is_email_allowed(email)`: case-insensitive membership in the allow-list. -/
def is_email_allowed (whitelist : List String) (email : String) : Bool :=
  (whitelist.map pyLower).contains (pyLower email)

/-- Entry of `otp_cache`: `{'otp': ..., 'expires': ..., 'attempts': ...}`. -/
structure OTPEntry where
  otp : String
  expires : ℚ
  attempts : Nat
deriving DecidableEq, Repr

abbrev OTPCache := List (String × OTPEntry)

/-- Entry of `session_cache`: `{'email': ..., 'expires': ...}`. -/
structure SessionEntry where
  email : String
  expires : ℚ
deriving DecidableEq, Repr

abbrev SessionCache := List (String × SessionEntry)

/-- `create_session(email)`; the random token is injected as a parameter. -/
def create_session (sessions : SessionCache) (now : ℚ) (token email : String) :
    SessionCache :=
  dictSet sessions token ⟨email, now + (SESSION_EXPIRY_DAYS : ℚ) * 24 * 60⟩

/-- Outcome of the `/api/auth/request` handler. -/
inductive RequestResult where
  | failure (message : String) (status : Nat)
  | success (message : String)
deriving DecidableEq, Repr

/-- `auth_request()`: rate limiting, allow-list gating, OTP issuance.  The
freshly generated code and the mail-delivery outcome are injected. -/
def auth_request (rates : RateLimitCache) (otps : OTPCache)
    (whitelist : List String) (now : ℚ) (client_ip : String) (email : String)
    (new_otp : String) (send_ok : Bool) :
    RequestResult × RateLimitCache × OTPCache :=
  match check_rate_limit rates now client_ip with
  | (false, rates') =>
    (.failure "Too many requests. Please wait 5 minutes." 429, rates', otps)
  | (true, rates') =>
    let email := pyLower (pyStrip email)
    if email = "" then (.failure "Email required" 400, rates', otps)
    else if is_email_allowed whitelist email then
      let otps' := dictSet otps email ⟨new_otp, now + OTP_EXPIRY_MINUTES, 0⟩
      if send_ok then (.success "OTP sent", rates', otps')
      else (.failure "Failed to send email" 500, rates', otps')
    else
      (.success "If email is registered, OTP was sent", rates', otps)

/-- Outcome of the `/api/auth/verify` handler. -/
inductive VerifyResult where
  | failure (message : String) (status : Nat)
  | success (email : String)
deriving DecidableEq, Repr

/-- `auth_verify()`: expiry check, attempt counting, code comparison, session
creation; the session token is injected. -/
def auth_verify (otps : OTPCache) (sessions : SessionCache) (now : ℚ)
    (token : String) (email otp : String) :
    VerifyResult × OTPCache × SessionCache :=
  let email := pyLower (pyStrip email)
  let otp := pyStrip otp
  if email = "" ∨ otp = "" then
    (.failure "Email and OTP required" 400, otps, sessions)
  else
    match cacheGet otps email with
    | none => (.failure "Invalid or expired OTP" 401, otps, sessions)
    | some stored =>
      if now > stored.expires then
        (.failure "OTP expired" 401, dictDel otps email, sessions)
      else
        let stored' : OTPEntry := ⟨stored.otp, stored.expires, stored.attempts + 1⟩
        if 3 < stored'.attempts then
          (.failure "Too many attempts" 429, dictDel otps email, sessions)
        else if otp ≠ stored.otp then
          (.failure "Invalid OTP" 401, dictSet otps email stored', sessions)
        else
          (.success email, dictDel otps email, create_session sessions now token email)

/-- Status bucket produced by `get_medication_status`. -/
inductive Bucket where
  | overdue
  | due
  | upcoming
deriving DecidableEq, Repr

/-- One entry of the status report (`med_info` in the source).  `scheduledMin`
embeds the `scheduled` datetime as minutes since today's midnight; the source
additionally formats it as an ISO string. -/
structure MedInfo where
  medication : String
  time : String
  scheduledMin : ℚ
  minutes_diff : Int
  minutes_late : Option Int
  minutes_until : Option Int
deriving DecidableEq, Repr

/-- The fields of `med_info` filled in before the bucket branch. -/
def mkMedInfo (nowMin : ℚ) (name t : String) (sched : ℚ) : MedInfo :=
  { medication := name, time := t, scheduledMin := sched,
    minutes_diff := pyInt |nowMin - sched|,
    minutes_late := none, minutes_until := none }

/-- The `if diff_minutes > window ... elif ... elif ...` classification.  The
final `elif diff_minutes < -window` is kept as in the source, so the value is
an `Option` whose `none` case is the (dead) fall-through. -/
def classify (window nowMin : ℚ) (name t : String) (sched : ℚ) :
    Option (Bucket × MedInfo) :=
  let diff := nowMin - sched
  let base := mkMedInfo nowMin name t sched
  if diff > window then
    some (.overdue, { base with minutes_late := some (pyInt diff) })
  else if diff ≥ -window then
    if diff > 0 then some (.due, { base with minutes_late := some (pyInt diff) })
    else some (.due, { base with minutes_until := some (pyInt |diff|) })
  else if diff < -window then
    some (.upcoming, { base with minutes_until := some (pyInt |diff|) })
  else none

/-- A medication entry of the YAML config. -/
structure Medication where
  name : String
  times : List String
  days : Option (List String)
  enabled : Bool
deriving DecidableEq, Repr

/-- The `settings` section (only the field the classifier reads). -/
structure Settings where
  reminder_window : ℚ
deriving DecidableEq, Repr

/-- The loaded configuration. -/
structure Config where
  medications : List Medication
  settings : Settings
deriving DecidableEq, Repr

/-- The body of the `for time_str in med.get('times', [])` loop: parse the
scheduled instant (`none` models the `strptime` exception), skip taken or
snoozed pairs, otherwise classify.  Returns the produced entry (if any) and
the snooze cache as left by `is_snoozed`. -/
def timeStep (window nowMin : ℚ) (ledger : List IntakeRecord) (today : String)
    (name : String) (cache : SnoozeCache) (t : String) :
    Option (Option (Bucket × MedInfo) × SnoozeCache) :=
  match parseHM t with
  | none => none
  | some sched =>
    if was_taken_today ledger today name t then some (none, cache)
    else if (is_snoozed cache nowMin name t).1 then
      some (none, (is_snoozed cache nowMin name t).2)
    else
      some (classify window nowMin name t (sched : ℚ),
        (is_snoozed cache nowMin name t).2)

/-- The inner loop over a medication's times. -/
def timesLoop (window nowMin : ℚ) (ledger : List IntakeRecord) (today : String)
    (name : String) : List String → SnoozeCache →
    Option (List (Bucket × MedInfo) × SnoozeCache)
  | [], cache => some ([], cache)
  | t :: ts, cache =>
    match timeStep window nowMin ledger today name cache t with
    | none => none
    | some (e, cache') =>
      match timesLoop window nowMin ledger today name ts cache' with
      | none => none
      | some (es, cache'') => some (e.toList ++ es, cache'')

/-- The outer loop over medications, skipping disabled medications and ones
not scheduled today. -/
def medsLoop (window nowMin : ℚ) (ledger : List IntakeRecord) (today : String)
    (today_weekday : Nat) : List Medication → SnoozeCache →
    Option (List (Bucket × MedInfo) × SnoozeCache)
  | [], cache => some ([], cache)
  | m :: ms, cache =>
    if m.enabled && is_scheduled_today m.days today_weekday then
      match timesLoop window nowMin ledger today m.name m.times cache with
      | none => none
      | some (es, cache') =>
        match medsLoop window nowMin ledger today today_weekday ms cache' with
        | none => none
        | some (es', cache'') => some (es ++ es', cache'')
    else medsLoop window nowMin ledger today today_weekday ms cache

/-- Lexicographic comparison of the `HH:MM` strings used as the sort key. -/
def charListLt : List Char → List Char → Bool
  | [], [] => false
  | [], _ :: _ => true
  | _ :: _, [] => false
  | a :: as, b :: bs => if a < b then true else if b < a then false else charListLt as bs

/-- Sort key comparison `x['time'] < y['time']`. -/
def timeLt (a b : MedInfo) : Bool := charListLt a.time.toList b.time.toList

/-- Stable insertion used by `sortByTime`. -/
def insertSorted (x : MedInfo) : List MedInfo → List MedInfo
  | [] => [x]
  | y :: ys => if timeLt y x then y :: insertSorted x ys else x :: y :: ys

/-- `list.sort(key=lambda x: x['time'])` (a stable ascending sort). -/
def sortByTime : List MedInfo → List MedInfo
  | [] => []
  | x :: xs => insertSorted x (sortByTime xs)

/-- The status report returned by `get_medication_status`. -/
structure StatusReport where
  overdue : List MedInfo
  due : List MedInfo
  upcoming : List MedInfo
  timestamp : ℚ
  settings : Settings
deriving DecidableEq, Repr

/-- Bucket projection of a report. -/
def StatusReport.bucket (r : StatusReport) : Bucket → List MedInfo
  | .overdue => r.overdue
  | .due => r.due
  | .upcoming => r.upcoming

/-- The entries appended to one of the three lists during the loops. -/
def bucketList (es : List (Bucket × MedInfo)) (b : Bucket) : List MedInfo :=
  (es.filter (fun e => decide (e.1 = b))).map (·.2)

/-- `get_medication_status()`: the full classification pass.  `today` is the
`%Y-%m-%d` date string, `today_weekday` the weekday used by
`is_scheduled_today`, `nowMin` the current time in minutes since midnight.
`none` models the exception raised on an unparsable configured time. -/
def get_medication_status (cfg : Config) (ledger : List IntakeRecord)
    (today : String) (today_weekday : Nat) (nowMin : ℚ) (cache : SnoozeCache) :
    Option (StatusReport × SnoozeCache) :=
  let window := cfg.settings.reminder_window
  match medsLoop window nowMin ledger today today_weekday cfg.medications cache with
  | none => none
  | some (es, cache') =>
    some ({ overdue := sortByTime (bucketList es .overdue),
            due := sortByTime (bucketList es .due),
            upcoming := sortByTime (bucketList es .upcoming),
            timestamp := nowMin, settings := cfg.settings }, cache')

/-- Outcome of the `/api/snooze` handler. -/
inductive SnoozeResult where
  | failure (message : String) (status : Nat)
  | success (snooze_until : ℚ)
deriving DecidableEq, Repr

/-- `snooze_medication()`: validate, then store `now + 5` minutes. -/
def snooze_medication (cache : SnoozeCache) (now : ℚ)
    (medication scheduled_time : String) : SnoozeResult × SnoozeCache :=
  if (validate_medication_input medication scheduled_time).1 = false then
    (.failure ((validate_medication_input medication scheduled_time).2.getD "") 400,
     cache)
  else
    (.success (now + 5), dictSet cache (medication, scheduled_time) (now + 5))

/-- Outcome of the `/api/confirm` handler. -/
inductive ConfirmResult where
  | failure (message : String) (status : Nat)
  | duplicate
  | success (medication scheduled_time actual_time : String)
deriving DecidableEq, Repr

/-- `confirm_intake()`: validate, reject duplicates, otherwise append one
`'taken'` row to the intake log. -/
def confirm_intake (ledger : List IntakeRecord) (today actual_time : String)
    (medication scheduled_time : String) : ConfirmResult × List IntakeRecord :=
  if (validate_medication_input medication scheduled_time).1 = false then
    (.failure ((validate_medication_input medication scheduled_time).2.getD "") 400,
     ledger)
  else if was_taken_today ledger today medication scheduled_time then
    (.duplicate, ledger)
  else
    (.success medication scheduled_time actual_time,
     ledger ++ [⟨medication, scheduled_time, actual_time, today, "taken"⟩])

/-- The (name, time) key holds no still-active snooze in `cache`. -/
def noActiveSnooze (now : ℚ) (cache : SnoozeCache) (k : String × String) : Prop :=
  ∀ u, cacheGet cache k = some u → u ≤ now

/-- Two-digit zero-padded decimal rendering (for n < 100). -/
def pad2 (n : Nat) : String := ⟨[Char.ofNat (48 + n / 10), Char.ofNat (48 + n % 10)]⟩

/-- Modelled from the claim's wording, not from the source: the strict
zero-padded `HH:MM` format with hour 0-23 and minute 0-59, used to compare
the validation regex against the stated format. -/
def strictHHMM (s : String) : Bool :=
  (List.range 24).any fun h => (List.range 60).any fun m =>
    s == pad2 h ++ ":" ++ pad2 m

/-- A (medication, time) pair occurs in a bucket list. -/
def inBucket (l : List MedInfo) (name t : String) : Prop :=
  ∃ i ∈ l, i.medication = name ∧ i.time = t

instance (l : List MedInfo) (name t : String) : Decidable (inBucket l name t) := by
  unfold inBucket; infer_instance

/-! ### Dictionary lemmas -/

theorem cacheGet_filter_ne {K V : Type} [DecidableEq K] (c : List (K × V))
    (k k' : K) (h : k ≠ k') :
    cacheGet (c.filter (fun p => !decide (p.1 = k'))) k = cacheGet c k := by
  induction c with
  | nil => rfl
  | cons p c ih =>
    obtain ⟨a, v⟩ := p
    by_cases hp : a = k'
    · subst hp
      simp [List.filter_cons, cacheGet, h, ih]
    · simp [List.filter_cons, cacheGet, hp, ih]

theorem cacheGet_filter_self {K V : Type} [DecidableEq K] (c : List (K × V)) (k : K) :
    cacheGet (c.filter (fun p => !decide (p.1 = k))) k = none := by
  induction c with
  | nil => rfl
  | cons p c ih =>
    obtain ⟨a, v⟩ := p
    by_cases hp : a = k
    · subst hp
      simp [List.filter_cons, ih]
    · simp [List.filter_cons, cacheGet, hp, ih]
      exact fun hk => hp hk.symm

theorem cacheGet_dictSet_self {K V : Type} [DecidableEq K] (c : List (K × V))
    (k : K) (v : V) : cacheGet (dictSet c k v) k = some v := by
  simp [dictSet, cacheGet]

theorem cacheGet_dictSet_ne {K V : Type} [DecidableEq K] (c : List (K × V))
    (k k' : K) (v : V) (h : k ≠ k') :
    cacheGet (dictSet c k' v) k = cacheGet c k := by
  simp only [dictSet, cacheGet, if_neg h]
  exact cacheGet_filter_ne c k k' h

theorem cacheGet_dictDel_self {K V : Type} [DecidableEq K] (c : List (K × V))
    (k : K) : cacheGet (dictDel c k) k = none :=
  cacheGet_filter_self c k

theorem cacheGet_dictDel_ne {K V : Type} [DecidableEq K] (c : List (K × V))
    (k k' : K) (h : k ≠ k') :
    cacheGet (dictDel c k') k = cacheGet c k :=
  cacheGet_filter_ne c k k' h

/-! ### Sorting and bucket membership -/

theorem mem_insertSorted (a x : MedInfo) (l : List MedInfo) :
    a ∈ insertSorted x l ↔ a = x ∨ a ∈ l := by
  induction l with
  | nil => simp [insertSorted]
  | cons y ys ih =>
    by_cases h : timeLt y x
    · simp only [insertSorted, if_pos h, List.mem_cons, ih]
      tauto
    · simp only [insertSorted, if_neg h, List.mem_cons]

theorem mem_sortByTime (a : MedInfo) (l : List MedInfo) :
    a ∈ sortByTime l ↔ a ∈ l := by
  induction l with
  | nil => simp [sortByTime]
  | cons x xs ih => simp [sortByTime, mem_insertSorted, ih]

theorem mem_bucketList (es : List (Bucket × MedInfo)) (b : Bucket) (i : MedInfo) :
    i ∈ bucketList es b ↔ (b, i) ∈ es := by
  unfold bucketList
  rw [List.mem_map]
  constructor
  · rintro ⟨e, he, rfl⟩
    rw [List.mem_filter] at he
    obtain ⟨he, hb⟩ := he
    have : e.1 = b := of_decide_eq_true hb
    obtain ⟨b', i'⟩ := e
    cases this
    exact he
  · intro h
    exact ⟨(b, i), List.mem_filter.2 ⟨h, by simp⟩, rfl⟩

/-- `was_taken_today` is the existence of a matching `'taken'` row of today. -/
theorem was_taken_today_iff (ledger : List IntakeRecord) (today medication t : String) :
    was_taken_today ledger today medication t = true ↔
      ∃ r ∈ ledger, r.medication = medication ∧ r.scheduled_time = t ∧
        r.created_date = today ∧ r.status = "taken" := by
  unfold was_taken_today
  rw [decide_eq_true_iff, List.countP_pos_iff]
  constructor
  · rintro ⟨r, hr, hp⟩
    exact ⟨r, hr, of_decide_eq_true hp⟩
  · rintro ⟨r, hr, hp⟩
    exact ⟨r, hr, decide_eq_true hp⟩

/-! ### Classification lemmas -/

theorem classify_isSome (window nowMin : ℚ) (name t : String) (sched : ℚ) :
    ∃ b i, classify window nowMin name t sched = some (b, i) := by
  unfold classify
  by_cases h1 : nowMin - sched > window
  · exact ⟨_, _, by rw [if_pos h1]⟩
  · by_cases h2 : nowMin - sched ≥ -window
    · by_cases h3 : nowMin - sched > 0
      · exact ⟨_, _, by rw [if_neg h1, if_pos h2, if_pos h3]⟩
      · exact ⟨_, _, by rw [if_neg h1, if_pos h2, if_neg h3]⟩
    · have h4 : nowMin - sched < -window := lt_of_not_le h2
      exact ⟨_, _, by rw [if_neg h1, if_neg h2, if_pos h4]⟩

/-- Everything `classify` reveals about a produced entry: its identifying
fields and the branch condition of the bucket it was put into. -/
theorem classify_spec (window nowMin : ℚ) (name t : String) (sched : ℚ)
    (b : Bucket) (i : MedInfo)
    (h : classify window nowMin name t sched = some (b, i)) :
    i.medication = name ∧ i.time = t ∧ i.scheduledMin = sched ∧
    i.minutes_diff = pyInt |nowMin - sched| ∧
    (b = .overdue → nowMin - sched > window ∧
      i.minutes_late = some (pyInt (nowMin - sched)) ∧ i.minutes_until = none) ∧
    (b = .due → ¬nowMin - sched > window ∧ nowMin - sched ≥ -window ∧
      (nowMin - sched > 0 →
        i.minutes_late = some (pyInt (nowMin - sched)) ∧ i.minutes_until = none) ∧
      (¬nowMin - sched > 0 →
        i.minutes_until = some (pyInt |nowMin - sched|) ∧ i.minutes_late = none)) ∧
    (b = .upcoming → ¬nowMin - sched > window ∧ nowMin - sched < -window ∧
      i.minutes_until = some (pyInt |nowMin - sched|) ∧ i.minutes_late = none) := by
  unfold classify at h
  by_cases h1 : nowMin - sched > window
  · rw [if_pos h1] at h
    injection h with h
    injection h with hb hi
    subst hb; subst hi
    exact ⟨rfl, rfl, rfl, rfl, fun _ => ⟨h1, rfl, rfl⟩,
      fun hd => Bucket.noConfusion hd, fun hu => Bucket.noConfusion hu⟩
  · rw [if_neg h1] at h
    by_cases h2 : nowMin - sched ≥ -window
    · rw [if_pos h2] at h
      by_cases h3 : nowMin - sched > 0
      · rw [if_pos h3] at h
        injection h with h
        injection h with hb hi
        subst hb; subst hi
        exact ⟨rfl, rfl, rfl, rfl, fun ho => Bucket.noConfusion ho,
          fun _ => ⟨h1, h2, fun _ => ⟨rfl, rfl⟩, fun hn => absurd h3 hn⟩,
          fun hu => Bucket.noConfusion hu⟩
      · rw [if_neg h3] at h
        injection h with h
        injection h with hb hi
        subst hb; subst hi
        exact ⟨rfl, rfl, rfl, rfl, fun ho => Bucket.noConfusion ho,
          fun _ => ⟨h1, h2, fun hp => absurd hp h3, fun _ => ⟨rfl, rfl⟩⟩,
          fun hu => Bucket.noConfusion hu⟩
    · rw [if_neg h2] at h
      have h4 : nowMin - sched < -window := lt_of_not_le h2
      rw [if_pos h4] at h
      injection h with h
      injection h with hb hi
      subst hb; subst hi
      exact ⟨rfl, rfl, rfl, rfl, fun ho => Bucket.noConfusion ho,
        fun hd => Bucket.noConfusion hd, fun _ => ⟨h1, h4, rfl, rfl⟩⟩

/-! ### Snooze-check and loop-step case analyses -/

theorem is_snoozed_cases (cache : SnoozeCache) (now : ℚ) (n t : String) :
    (cacheGet cache (n, t) = none ∧ is_snoozed cache now n t = (false, cache)) ∨
    (∃ u, cacheGet cache (n, t) = some u ∧ now < u ∧
      is_snoozed cache now n t = (true, cache)) ∨
    (∃ u, cacheGet cache (n, t) = some u ∧ ¬now < u ∧
      is_snoozed cache now n t = (false, dictDel cache (n, t))) := by
  unfold is_snoozed
  cases hc : cacheGet cache (n, t) with
  | none => exact Or.inl ⟨rfl, rfl⟩
  | some u =>
    by_cases hu : now < u
    · exact Or.inr (Or.inl ⟨u, rfl, hu, by simp [hu]⟩)
    · exact Or.inr (Or.inr ⟨u, rfl, hu, by simp [hu]⟩)

theorem timeStep_cases (window nowMin : ℚ) (ledger : List IntakeRecord)
    (today name : String) (cache : SnoozeCache) (t : String)
    (e : Option (Bucket × MedInfo)) (cache' : SnoozeCache)
    (h : timeStep window nowMin ledger today name cache t = some (e, cache')) :
    ∃ s, parseHM t = some s ∧
      ((was_taken_today ledger today name t = true ∧ e = none ∧ cache' = cache) ∨
       (was_taken_today ledger today name t = false ∧
         (is_snoozed cache nowMin name t).1 = true ∧ e = none ∧
         cache' = (is_snoozed cache nowMin name t).2) ∨
       (was_taken_today ledger today name t = false ∧
         (is_snoozed cache nowMin name t).1 = false ∧
         e = classify window nowMin name t (s : ℚ) ∧
         cache' = (is_snoozed cache nowMin name t).2)) := by
  unfold timeStep at h
  split at h
  · exact Option.noConfusion h
  next s hp =>
    refine ⟨s, hp, ?_⟩
    split at h
    next ht =>
      injection h with h
      injection h with he hc
      exact Or.inl ⟨ht, he.symm, hc.symm⟩
    next ht =>
      split at h
      next hs =>
        injection h with h
        injection h with he hc
        exact Or.inr (Or.inl ⟨Bool.eq_false_iff.2 ht, hs, he.symm, hc.symm⟩)
      next hs =>
        injection h with h
        injection h with he hc
        exact Or.inr (Or.inr ⟨Bool.eq_false_iff.2 ht, Bool.eq_false_iff.2 hs,
          he.symm, hc.symm⟩)

/-- The snooze check never adds keys: a binding present afterwards was
present before (with the same value). -/
theorem is_snoozed_snd_sub (cache : SnoozeCache) (now : ℚ) (n t : String)
    (k : String × String) (v : ℚ)
    (h : cacheGet (is_snoozed cache now n t).2 k = some v) :
    cacheGet cache k = some v := by
  rcases is_snoozed_cases cache now n t with ⟨_, hc⟩ | ⟨u, _, _, hc⟩ | ⟨u, _, _, hc⟩ <;>
    rw [hc] at h
  · exact h
  · exact h
  · by_cases hk : k = (n, t)
    · rw [hk, cacheGet_dictDel_self] at h
      exact Option.noConfusion h
    · rwa [cacheGet_dictDel_ne _ _ _ hk] at h

theorem timeStep_snd_sub (window nowMin : ℚ) (ledger : List IntakeRecord)
    (today name : String) (cache : SnoozeCache) (t : String)
    (e : Option (Bucket × MedInfo)) (cache' : SnoozeCache)
    (h : timeStep window nowMin ledger today name cache t = some (e, cache'))
    (k : String × String) (v : ℚ) (hv : cacheGet cache' k = some v) :
    cacheGet cache k = some v := by
  obtain ⟨s, _, hc | hc | hc⟩ := timeStep_cases _ _ _ _ _ _ _ _ _ h
  · rw [hc.2.2] at hv; exact hv
  · rw [hc.2.2.2] at hv; exact is_snoozed_snd_sub _ _ _ _ _ _ hv
  · rw [hc.2.2.2] at hv; exact is_snoozed_snd_sub _ _ _ _ _ _ hv

theorem timesLoop_snd_sub (window nowMin : ℚ) (ledger : List IntakeRecord)
    (today name : String) :
    ∀ (ts : List String) (cache : SnoozeCache) (es : List (Bucket × MedInfo))
      (cache' : SnoozeCache),
      timesLoop window nowMin ledger today name ts cache = some (es, cache') →
      ∀ (k : String × String) (v : ℚ),
        cacheGet cache' k = some v → cacheGet cache k = some v := by
  intro ts
  induction ts with
  | nil =>
    intro cache es cache' h k v hv
    unfold timesLoop at h
    injection h with h
    injection h with _ hc
    rw [hc]
    exact hv
  | cons t0 ts ih =>
    intro cache es cache' h k v hv
    unfold timesLoop at h
    split at h
    · exact Option.noConfusion h
    next e cache1 hstep =>
      split at h
      · exact Option.noConfusion h
      next es1 cache2 hrest =>
        injection h with h
        injection h with _ hc
        rw [← hc] at hv
        exact timeStep_snd_sub _ _ _ _ _ _ _ _ _ hstep _ _ (ih _ _ _ hrest _ _ hv)

theorem medsLoop_snd_sub (window nowMin : ℚ) (ledger : List IntakeRecord)
    (today : String) (today_weekday : Nat) :
    ∀ (meds : List Medication) (cache : SnoozeCache)
      (es : List (Bucket × MedInfo)) (cache' : SnoozeCache),
      medsLoop window nowMin ledger today today_weekday meds cache = some (es, cache') →
      ∀ (k : String × String) (v : ℚ),
        cacheGet cache' k = some v → cacheGet cache k = some v := by
  intro meds
  induction meds with
  | nil =>
    intro cache es cache' h k v hv
    unfold medsLoop at h
    injection h with h
    injection h with _ hc
    rw [hc]
    exact hv
  | cons m ms ih =>
    intro cache es cache' h k v hv
    unfold medsLoop at h
    split at h
    · split at h
      · exact Option.noConfusion h
      next es1 cache1 hts =>
        split at h
        · exact Option.noConfusion h
        next es2 cache2 hrest =>
          injection h with h
          injection h with _ hc
          rw [← hc] at hv
          exact timesLoop_snd_sub _ _ _ _ _ _ _ _ _ hts _ _ (ih _ _ _ hrest _ _ hv)
    · exact ih _ _ _ h _ _ hv

/-! ### Where produced entries come from -/

theorem timesLoop_mem (window nowMin : ℚ) (ledger : List IntakeRecord)
    (today name : String) :
    ∀ (ts : List String) (cache : SnoozeCache) (es : List (Bucket × MedInfo))
      (cache' : SnoozeCache),
      timesLoop window nowMin ledger today name ts cache = some (es, cache') →
      ∀ b i, (b, i) ∈ es →
        ∃ t ∈ ts, ∃ s, parseHM t = some s ∧
          was_taken_today ledger today name t = false ∧
          classify window nowMin name t (s : ℚ) = some (b, i) := by
  intro ts
  induction ts with
  | nil =>
    intro cache es cache' h b i hmem
    unfold timesLoop at h
    injection h with h
    injection h with hes _
    rw [← hes] at hmem
    cases hmem
  | cons t0 ts ih =>
    intro cache es cache' h b i hmem
    unfold timesLoop at h
    split at h
    · exact Option.noConfusion h
    next e cache1 hstep =>
      split at h
      · exact Option.noConfusion h
      next es1 cache2 hrest =>
        injection h with h
        injection h with hes _
        rw [← hes, List.mem_append] at hmem
        cases hmem with
        | inl hhead =>
          have he : e = some (b, i) := by
            cases e with
            | none => cases hhead
            | some x =>
              simp only [Option.toList, List.mem_singleton] at hhead
              rw [hhead]
          obtain ⟨s, hp, hcase⟩ := timeStep_cases _ _ _ _ _ _ _ _ _ hstep
          rcases hcase with ⟨_, he0, _⟩ | ⟨_, _, he0, _⟩ | ⟨htk, _, he0, _⟩
          · rw [he0] at he; exact Option.noConfusion he
          · rw [he0] at he; exact Option.noConfusion he
          · exact ⟨t0, List.mem_cons_self _ _, s, hp, htk, by rw [← he0, he]⟩
        | inr htail =>
          obtain ⟨t, ht, s, hp, htk, hcl⟩ := ih _ _ _ hrest b i htail
          exact ⟨t, List.mem_cons_of_mem _ ht, s, hp, htk, hcl⟩

theorem medsLoop_mem (window nowMin : ℚ) (ledger : List IntakeRecord)
    (today : String) (today_weekday : Nat) :
    ∀ (meds : List Medication) (cache : SnoozeCache)
      (es : List (Bucket × MedInfo)) (cache' : SnoozeCache),
      medsLoop window nowMin ledger today today_weekday meds cache = some (es, cache') →
      ∀ b i, (b, i) ∈ es →
        ∃ m ∈ meds, m.enabled = true ∧
          is_scheduled_today m.days today_weekday = true ∧
          ∃ t ∈ m.times, ∃ s, parseHM t = some s ∧
            was_taken_today ledger today m.name t = false ∧
            classify window nowMin m.name t (s : ℚ) = some (b, i) := by
  intro meds
  induction meds with
  | nil =>
    intro cache es cache' h b i hmem
    unfold medsLoop at h
    injection h with h
    injection h with hes _
    rw [← hes] at hmem
    cases hmem
  | cons m0 ms ih =>
    intro cache es cache' h b i hmem
    unfold medsLoop at h
    split at h
    next hm0 =>
      obtain ⟨hen, hsch⟩ := Bool.and_eq_true_iff.1 hm0
      split at h
      · exact Option.noConfusion h
      next es1 cache1 hts =>
        split at h
        · exact Option.noConfusion h
        next es2 cache2 hrest =>
          injection h with h
          injection h with hes _
          rw [← hes, List.mem_append] at hmem
          cases hmem with
          | inl hhead =>
            obtain ⟨t, ht, s, hp, htk, hcl⟩ :=
              timesLoop_mem _ _ _ _ _ _ _ _ _ hts b i hhead
            exact ⟨m0, List.mem_cons_self _ _, hen, hsch, t, ht, s, hp, htk, hcl⟩
          | inr htail =>
            obtain ⟨m, hm, hen', hsch', rest⟩ := ih _ _ _ hrest b i htail
            exact ⟨m, List.mem_cons_of_mem _ hm, hen', hsch', rest⟩
    next hm0 =>
      obtain ⟨m, hm, hen', hsch', rest⟩ := ih _ _ _ h b i hmem
      exact ⟨m, List.mem_cons_of_mem _ hm, hen', hsch', rest⟩

/-! ### Snooze invariants -/

theorem is_snoozed_fst_false (cache : SnoozeCache) (now : ℚ) (n t : String)
    (hinv : noActiveSnooze now cache (n, t)) :
    (is_snoozed cache now n t).1 = false := by
  rcases is_snoozed_cases cache now n t with ⟨_, ho⟩ | ⟨u, hu, hlt, ho⟩ | ⟨_, _, _, ho⟩ <;>
    rw [ho]
  exact absurd hlt (not_lt.2 (hinv u hu))

theorem is_snoozed_evict (cache : SnoozeCache) (now : ℚ) (n t : String)
    (hinv : noActiveSnooze now cache (n, t)) :
    cacheGet (is_snoozed cache now n t).2 (n, t) = none := by
  rcases is_snoozed_cases cache now n t with ⟨hn, ho⟩ | ⟨u, hu, hlt, ho⟩ | ⟨u, hu, _, ho⟩ <;>
    rw [ho]
  · exact hn
  · exact absurd hlt (not_lt.2 (hinv u hu))
  · exact cacheGet_dictDel_self _ _

/-- An active snooze binding survives the snooze check unchanged. -/
theorem is_snoozed_snd_get_active (cache : SnoozeCache) (now : ℚ) (n t : String)
    (k : String × String) (u : ℚ) (hu : cacheGet cache k = some u)
    (hnow : now < u) :
    cacheGet (is_snoozed cache now n t).2 k = some u := by
  rcases is_snoozed_cases cache now n t with ⟨_, ho⟩ | ⟨u', _, _, ho⟩ | ⟨u', hu', hge, ho⟩ <;>
    rw [ho]
  · exact hu
  · exact hu
  · by_cases hk : k = (n, t)
    · subst hk
      rw [hu] at hu'
      injection hu' with he
      rw [← he] at hge
      exact absurd hnow hge
    · rw [cacheGet_dictDel_ne _ _ _ hk]
      exact hu

/-- `cacheGet = none` survives any step whose output cache is a sub-map. -/
theorem cacheGet_none_of_sub {K V : Type} [DecidableEq K]
    (cache cache' : List (K × V)) (k : K)
    (hsub : ∀ v, cacheGet cache' k = some v → cacheGet cache k = some v)
    (h : cacheGet cache k = none) : cacheGet cache' k = none := by
  cases hc : cacheGet cache' k with
  | none => rfl
  | some v => rw [hsub v hc] at h; exact Option.noConfusion h

theorem noActiveSnooze_of_sub (now : ℚ) (cache cache' : SnoozeCache)
    (k : String × String)
    (hsub : ∀ v, cacheGet cache' k = some v → cacheGet cache k = some v)
    (h : noActiveSnooze now cache k) : noActiveSnooze now cache' k :=
  fun u hu => h u (hsub u hu)

/-- If the (name, t) pair has no active snooze, a pass over the time list
containing `t` (with `t` parsable and not taken) reports the classified entry
and leaves the pair evicted from the snooze cache. -/
theorem timesLoop_present (window nowMin : ℚ) (ledger : List IntakeRecord)
    (today name : String) :
    ∀ (ts : List String) (cache : SnoozeCache) (es : List (Bucket × MedInfo))
      (cache' : SnoozeCache) (t : String) (s : Nat),
      timesLoop window nowMin ledger today name ts cache = some (es, cache') →
      t ∈ ts → parseHM t = some s →
      was_taken_today ledger today name t = false →
      noActiveSnooze nowMin cache (name, t) →
      (∀ b i, classify window nowMin name t (s : ℚ) = some (b, i) → (b, i) ∈ es) ∧
        cacheGet cache' (name, t) = none := by
  intro ts
  induction ts with
  | nil =>
    intro cache es cache' t s h hmem
    cases hmem
  | cons t0 ts ih =>
    intro cache es cache' t s h hmem hp htk hinv
    unfold timesLoop at h
    split at h
    · exact Option.noConfusion h
    next e cache1 hstep =>
      split at h
      · exact Option.noConfusion h
      next es1 cache2 hrest =>
        injection h with h
        injection h with hes hc
        by_cases hteq : t = t0
        · subst hteq
          obtain ⟨s0, hp0, hcase⟩ := timeStep_cases _ _ _ _ _ _ _ _ _ hstep
          rw [hp] at hp0
          injection hp0 with hs0
          subst hs0
          rcases hcase with ⟨htk0, _, _⟩ | ⟨_, hsn, _, _⟩ | ⟨_, _, he0, hc0⟩
          · rw [htk0] at htk; exact Bool.noConfusion htk
          · rw [is_snoozed_fst_false _ _ _ _ hinv] at hsn; exact Bool.noConfusion hsn
          · constructor
            · intro b i hcl
              rw [← hes]
              apply List.mem_append_left
              have : e.toList = [(b, i)] := by rw [he0, hcl]; rfl
              rw [this]
              exact List.mem_singleton_self _
            · have h1 : cacheGet cache1 (name, t) = none := by
                rw [hc0]; exact is_snoozed_evict _ _ _ _ hinv
              rw [← hc]
              exact cacheGet_none_of_sub cache1 cache2 _
                (fun v hv => timesLoop_snd_sub _ _ _ _ _ _ _ _ _ hrest _ v hv) h1
        · have hmem' : t ∈ ts := by
            rcases List.mem_cons.mp hmem with h1 | h1
            · exact absurd h1 hteq
            · exact h1
          have hinv1 : noActiveSnooze nowMin cache1 (name, t) :=
            noActiveSnooze_of_sub _ _ _ _
              (fun v hv => timeStep_snd_sub _ _ _ _ _ _ _ _ _ hstep _ v hv) hinv
          obtain ⟨hpres, hev⟩ := ih _ _ _ _ _ hrest hmem' hp htk hinv1
          constructor
          · intro b i hcl
            rw [← hes]
            exact List.mem_append_right _ (hpres b i hcl)
          · rw [← hc]
            exact hev

/-- The same through the medication loop. -/
theorem medsLoop_present (window nowMin : ℚ) (ledger : List IntakeRecord)
    (today : String) (today_weekday : Nat) :
    ∀ (meds : List Medication) (cache : SnoozeCache)
      (es : List (Bucket × MedInfo)) (cache' : SnoozeCache)
      (m : Medication) (t : String) (s : Nat),
      medsLoop window nowMin ledger today today_weekday meds cache = some (es, cache') →
      m ∈ meds → m.enabled = true →
      is_scheduled_today m.days today_weekday = true →
      t ∈ m.times → parseHM t = some s →
      was_taken_today ledger today m.name t = false →
      noActiveSnooze nowMin cache (m.name, t) →
      (∀ b i, classify window nowMin m.name t (s : ℚ) = some (b, i) → (b, i) ∈ es) ∧
        cacheGet cache' (m.name, t) = none := by
  intro meds
  induction meds with
  | nil =>
    intro cache es cache' m t s h hm
    cases hm
  | cons m0 ms ih =>
    intro cache es cache' m t s h hm hen hsch ht hp htk hinv
    unfold medsLoop at h
    rcases List.mem_cons.mp hm with hm0 | hmtail
    · subst hm0
      rw [if_pos (by rw [hen, hsch]; rfl)] at h
      split at h
      · exact Option.noConfusion h
      next es1 cache1 hts =>
        split at h
        · exact Option.noConfusion h
        next es2 cache2 hrest =>
          injection h with h
          injection h with hes hc
          obtain ⟨hpres, hev1⟩ :=
            timesLoop_present _ _ _ _ _ _ _ _ _ _ _ hts ht hp htk hinv
          constructor
          · intro b i hcl
            rw [← hes]
            exact List.mem_append_left _ (hpres b i hcl)
          · rw [← hc]
            exact cacheGet_none_of_sub cache1 cache2 _
              (fun v hv => medsLoop_snd_sub _ _ _ _ _ _ _ _ _ hrest _ v hv) hev1
    · split at h
      next hm0 =>
        split at h
        · exact Option.noConfusion h
        next es1 cache1 hts =>
          split at h
          · exact Option.noConfusion h
          next es2 cache2 hrest =>
            injection h with h
            injection h with hes hc
            have hinv1 : noActiveSnooze nowMin cache1 (m.name, t) :=
              noActiveSnooze_of_sub _ _ _ _
                (fun v hv => timesLoop_snd_sub _ _ _ _ _ _ _ _ _ hts _ v hv) hinv
            obtain ⟨hpres, hev⟩ := ih _ _ _ _ _ _ hrest hmtail hen hsch ht hp htk hinv1
            constructor
            · intro b i hcl
              rw [← hes]
              exact List.mem_append_right _ (hpres b i hcl)
            · rw [← hc]
              exact hev
      next hm0 =>
        exact ih _ _ _ _ _ _ h hmtail hen hsch ht hp htk hinv

/-! ### Active snoozes suppress the pair -/

theorem timeStep_snoozed_excluded (window nowMin : ℚ) (ledger : List IntakeRecord)
    (today name : String) (cache : SnoozeCache) (t : String)
    (e : Option (Bucket × MedInfo)) (cache' : SnoozeCache)
    (k : String × String) (u : ℚ)
    (hu : cacheGet cache k = some u) (hnow : nowMin < u)
    (h : timeStep window nowMin ledger today name cache t = some (e, cache')) :
    (∀ b i, e = some (b, i) → ¬(i.medication = k.1 ∧ i.time = k.2)) ∧
      cacheGet cache' k = some u := by
  obtain ⟨s, hp, hcase⟩ := timeStep_cases _ _ _ _ _ _ _ _ _ h
  rcases hcase with ⟨_, he, hc⟩ | ⟨_, _, he, hc⟩ | ⟨_, hsn, he, hc⟩
  · exact ⟨fun b i hbi => by rw [he] at hbi; exact Option.noConfusion hbi,
      by rw [hc]; exact hu⟩
  · refine ⟨fun b i hbi => by rw [he] at hbi; exact Option.noConfusion hbi, ?_⟩
    rw [hc]
    exact is_snoozed_snd_get_active _ _ _ _ _ _ hu hnow
  · have hkne : (name, t) ≠ k := by
      intro hkeq
      rcases is_snoozed_cases cache nowMin name t with
        ⟨hnone, _⟩ | ⟨u', hu', hlt, ho⟩ | ⟨u', hu', hge, ho⟩
      · rw [hkeq, hu] at hnone; exact Option.noConfusion hnone
      · rw [ho] at hsn; exact Bool.noConfusion hsn
      · rw [hkeq, hu] at hu'
        injection hu' with he'
        rw [← he'] at hge
        exact hge hnow
    constructor
    · intro b i hbi hik
      have hcl : classify window nowMin name t (s : ℚ) = some (b, i) := by
        rw [← he, hbi]
      obtain ⟨hmed, htime, _⟩ := classify_spec _ _ _ _ _ _ _ hcl
      apply hkne
      have h1 : name = k.1 := hmed ▸ hik.1
      have h2 : t = k.2 := htime ▸ hik.2
      rw [h1, h2]
    · rw [hc]
      exact is_snoozed_snd_get_active _ _ _ _ _ _ hu hnow

theorem timesLoop_snoozed_excluded (window nowMin : ℚ) (ledger : List IntakeRecord)
    (today name : String) :
    ∀ (ts : List String) (cache : SnoozeCache) (es : List (Bucket × MedInfo))
      (cache' : SnoozeCache) (k : String × String) (u : ℚ),
      cacheGet cache k = some u → nowMin < u →
      timesLoop window nowMin ledger today name ts cache = some (es, cache') →
      (∀ b i, (b, i) ∈ es → ¬(i.medication = k.1 ∧ i.time = k.2)) ∧
        cacheGet cache' k = some u := by
  intro ts
  induction ts with
  | nil =>
    intro cache es cache' k u hu hnow h
    unfold timesLoop at h
    injection h with h
    injection h with hes hc
    refine ⟨fun b i hbi => ?_, ?_⟩
    · rw [← hes] at hbi
      cases hbi
    · rw [← hc]
      exact hu
  | cons t0 ts ih =>
    intro cache es cache' k u hu hnow h
    unfold timesLoop at h
    split at h
    · exact Option.noConfusion h
    next e cache1 hstep =>
      split at h
      · exact Option.noConfusion h
      next es1 cache2 hrest =>
        injection h with h
        injection h with hes hc
        obtain ⟨hex0, hu1⟩ :=
          timeStep_snoozed_excluded _ _ _ _ _ _ _ _ _ _ _ hu hnow hstep
        obtain ⟨hex1, hu2⟩ := ih _ _ _ _ _ hu1 hnow hrest
        constructor
        · intro b i hbi
          rw [← hes, List.mem_append] at hbi
          cases hbi with
          | inl hhead =>
            apply hex0 b i
            cases e with
            | none => cases hhead
            | some x =>
              simp only [Option.toList, List.mem_singleton] at hhead
              rw [hhead]
          | inr htail => exact hex1 b i htail
        · rw [← hc]
          exact hu2

theorem medsLoop_snoozed_excluded (window nowMin : ℚ) (ledger : List IntakeRecord)
    (today : String) (today_weekday : Nat) :
    ∀ (meds : List Medication) (cache : SnoozeCache)
      (es : List (Bucket × MedInfo)) (cache' : SnoozeCache)
      (k : String × String) (u : ℚ),
      cacheGet cache k = some u → nowMin < u →
      medsLoop window nowMin ledger today today_weekday meds cache = some (es, cache') →
      (∀ b i, (b, i) ∈ es → ¬(i.medication = k.1 ∧ i.time = k.2)) ∧
        cacheGet cache' k = some u := by
  intro meds
  induction meds with
  | nil =>
    intro cache es cache' k u hu hnow h
    unfold medsLoop at h
    injection h with h
    injection h with hes hc
    refine ⟨fun b i hbi => ?_, ?_⟩
    · rw [← hes] at hbi
      cases hbi
    · rw [← hc]
      exact hu
  | cons m0 ms ih =>
    intro cache es cache' k u hu hnow h
    unfold medsLoop at h
    split at h
    next hm0 =>
      split at h
      · exact Option.noConfusion h
      next es1 cache1 hts =>
        split at h
        · exact Option.noConfusion h
        next es2 cache2 hrest =>
          injection h with h
          injection h with hes hc
          obtain ⟨hex0, hu1⟩ :=
            timesLoop_snoozed_excluded _ _ _ _ _ _ _ _ _ _ _ hu hnow hts
          obtain ⟨hex1, hu2⟩ := ih _ _ _ _ _ hu1 hnow hrest
          constructor
          · intro b i hbi
            rw [← hes, List.mem_append] at hbi
            cases hbi with
            | inl hhead => exact hex0 b i hhead
            | inr htail => exact hex1 b i htail
          · rw [← hc]
            exact hu2
    next hm0 =>
      exact ih _ _ _ _ _ hu hnow h

/-! ### Branch-level computation lemmas for `classify` -/

theorem classify_overdue (window nowMin : ℚ) (name t : String) (sched : ℚ)
    (h : nowMin - sched > window) :
    classify window nowMin name t sched = some (.overdue,
      { mkMedInfo nowMin name t sched with
          minutes_late := some (pyInt (nowMin - sched)) }) := by
  unfold classify
  rw [if_pos h]

theorem classify_due_late (window nowMin : ℚ) (name t : String) (sched : ℚ)
    (h1 : ¬nowMin - sched > window) (h2 : nowMin - sched ≥ -window)
    (h3 : nowMin - sched > 0) :
    classify window nowMin name t sched = some (.due,
      { mkMedInfo nowMin name t sched with
          minutes_late := some (pyInt (nowMin - sched)) }) := by
  unfold classify
  rw [if_neg h1, if_pos h2, if_pos h3]

theorem classify_due_early (window nowMin : ℚ) (name t : String) (sched : ℚ)
    (h1 : ¬nowMin - sched > window) (h2 : nowMin - sched ≥ -window)
    (h3 : ¬nowMin - sched > 0) :
    classify window nowMin name t sched = some (.due,
      { mkMedInfo nowMin name t sched with
          minutes_until := some (pyInt |nowMin - sched|) }) := by
  unfold classify
  rw [if_neg h1, if_pos h2, if_neg h3]

theorem classify_upcoming (window nowMin : ℚ) (name t : String) (sched : ℚ)
    (h1 : ¬nowMin - sched > window) (h2 : ¬nowMin - sched ≥ -window) :
    classify window nowMin name t sched = some (.upcoming,
      { mkMedInfo nowMin name t sched with
          minutes_until := some (pyInt |nowMin - sched|) }) := by
  unfold classify
  rw [if_neg h1, if_neg h2, if_pos (not_le.1 h2)]

/-! ### Report-level characterization -/

theorem get_status_eq (cfg : Config) (ledger : List IntakeRecord) (today : String)
    (today_weekday : Nat) (nowMin : ℚ) (cache : SnoozeCache)
    (r : StatusReport) (cache' : SnoozeCache)
    (h : get_medication_status cfg ledger today today_weekday nowMin cache =
      some (r, cache')) :
    ∃ es, medsLoop cfg.settings.reminder_window nowMin ledger today today_weekday
        cfg.medications cache = some (es, cache') ∧
      ∀ b, r.bucket b = sortByTime (bucketList es b) := by
  simp only [get_medication_status] at h
  split at h
  · exact Option.noConfusion h
  next es cache2 hml =>
    injection h with h
    injection h with hrec hc
    subst hc
    refine ⟨es, hml, ?_⟩
    intro b
    rw [← hrec]
    cases b <;> rfl

/-- Every entry of a report bucket stems from an enabled medication scheduled
today, an unparsed-successfully configured time, a not-yet-taken pair, and
the classification branch for that bucket. -/
theorem report_mem_spec (cfg : Config) (ledger : List IntakeRecord) (today : String)
    (today_weekday : Nat) (nowMin : ℚ) (cache : SnoozeCache)
    (r : StatusReport) (cache' : SnoozeCache) (b : Bucket) (i : MedInfo)
    (hr : get_medication_status cfg ledger today today_weekday nowMin cache =
      some (r, cache'))
    (hib : i ∈ r.bucket b) :
    ∃ m ∈ cfg.medications, m.enabled = true ∧
      is_scheduled_today m.days today_weekday = true ∧
      ∃ t ∈ m.times, ∃ s, parseHM t = some s ∧
        was_taken_today ledger today m.name t = false ∧
        classify cfg.settings.reminder_window nowMin m.name t (s : ℚ) = some (b, i) := by
  obtain ⟨es, hml, hb⟩ := get_status_eq _ _ _ _ _ _ _ _ hr
  rw [hb b, mem_sortByTime, mem_bucketList] at hib
  exact medsLoop_mem _ _ _ _ _ _ _ _ _ hml b i hib

/-! ### Claim C1 -/

/-- C1: For every enabled medication scheduled for today and each of its daily
times that is neither taken today nor currently snoozed, with
`diff = now - scheduled` minutes and window `W`, `get_medication_status`
places the entry in exactly one bucket by priority order: overdue if
`diff > W`, else due if `diff ≥ -W` (recording `minutes_late` when
`diff > 0`, `minutes_until` otherwise), else upcoming; in particular
`diff = W` lands in due and any `diff > W` lands in overdue. -/
theorem c1_status_bucket_priority
    (cfg : Config) (ledger : List IntakeRecord) (today : String)
    (today_weekday : Nat) (nowMin : ℚ) (cache : SnoozeCache)
    (m : Medication) (hm : m ∈ cfg.medications) (hen : m.enabled = true)
    (hsch : is_scheduled_today m.days today_weekday = true)
    (t : String) (ht : t ∈ m.times) (s : Nat) (hs : parseHM t = some s)
    (htaken : was_taken_today ledger today m.name t = false)
    (hsnooze : noActiveSnooze nowMin cache (m.name, t))
    (r : StatusReport) (cache' : SnoozeCache)
    (hr : get_medication_status cfg ledger today today_weekday nowMin cache =
      some (r, cache')) :
    (nowMin - (s : ℚ) > cfg.settings.reminder_window →
      (∃ i ∈ r.overdue, i.medication = m.name ∧ i.time = t ∧
        i.minutes_late = some (pyInt (nowMin - (s : ℚ))) ∧ i.minutes_until = none) ∧
      ¬inBucket r.due m.name t ∧ ¬inBucket r.upcoming m.name t) ∧
    (¬nowMin - (s : ℚ) > cfg.settings.reminder_window →
      nowMin - (s : ℚ) ≥ -cfg.settings.reminder_window →
      (∃ i ∈ r.due, i.medication = m.name ∧ i.time = t ∧
        (nowMin - (s : ℚ) > 0 →
          i.minutes_late = some (pyInt (nowMin - (s : ℚ))) ∧ i.minutes_until = none) ∧
        (¬nowMin - (s : ℚ) > 0 →
          i.minutes_until = some (pyInt |nowMin - (s : ℚ)|) ∧ i.minutes_late = none)) ∧
      ¬inBucket r.overdue m.name t ∧ ¬inBucket r.upcoming m.name t) ∧
    (¬nowMin - (s : ℚ) > cfg.settings.reminder_window →
      ¬nowMin - (s : ℚ) ≥ -cfg.settings.reminder_window →
      (∃ i ∈ r.upcoming, i.medication = m.name ∧ i.time = t ∧
        i.minutes_until = some (pyInt |nowMin - (s : ℚ)|) ∧ i.minutes_late = none) ∧
      ¬inBucket r.overdue m.name t ∧ ¬inBucket r.due m.name t) := by
  obtain ⟨es, hml, hbuck⟩ := get_status_eq _ _ _ _ _ _ _ _ hr
  obtain ⟨hpres, _⟩ :=
    medsLoop_present _ _ _ _ _ _ _ _ _ _ _ _ hml hm hen hsch ht hs htaken hsnooze
  have hmem : ∀ b i,
      classify cfg.settings.reminder_window nowMin m.name t (s : ℚ) = some (b, i) →
      i ∈ r.bucket b := by
    intro b i hcl
    rw [hbuck b, mem_sortByTime, mem_bucketList]
    exact hpres b i hcl
  have hexcl : ∀ b, (∀ i ∈ r.bucket b, i.medication = m.name → i.time = t →
      (b = .overdue → nowMin - (s : ℚ) > cfg.settings.reminder_window) ∧
      (b = .due → ¬nowMin - (s : ℚ) > cfg.settings.reminder_window ∧
        nowMin - (s : ℚ) ≥ -cfg.settings.reminder_window) ∧
      (b = .upcoming → ¬nowMin - (s : ℚ) > cfg.settings.reminder_window ∧
        nowMin - (s : ℚ) < -cfg.settings.reminder_window)) := by
    intro b i hib _ hit
    obtain ⟨m', _, _, _, t', _, s', hps', _, hcl'⟩ :=
      report_mem_spec _ _ _ _ _ _ _ _ _ _ hr hib
    obtain ⟨_, hit', hsc', _, hov', hdu', hup'⟩ := classify_spec _ _ _ _ _ _ _ hcl'
    have htt : t' = t := by rw [← hit', hit]
    rw [htt] at hps'
    rw [hs] at hps'
    injection hps' with hss
    subst hss
    refine ⟨fun hb => ?_, fun hb => ?_, fun hb => ?_⟩
    · exact (hov' hb).1
    · exact ⟨(hdu' hb).1, (hdu' hb).2.1⟩
    · exact ⟨(hup' hb).1, (hup' hb).2.1⟩
  refine ⟨fun h1 => ?_, fun h1 h2 => ?_, fun h1 h2 => ?_⟩
  · refine ⟨⟨_, hmem _ _ (classify_overdue _ _ _ _ _ h1), rfl, rfl, rfl, rfl⟩, ?_, ?_⟩
    · rintro ⟨i, hib, hmed, hit⟩
      have := ((hexcl .due i hib hmed hit).2.1 rfl).1
      exact this h1
    · rintro ⟨i, hib, hmed, hit⟩
      exact ((hexcl .upcoming i hib hmed hit).2.2 rfl).1 h1
  · by_cases h3 : nowMin - (s : ℚ) > 0
    · refine ⟨⟨_, hmem _ _ (classify_due_late _ _ _ _ _ h1 h2 h3), rfl, rfl,
        fun _ => ⟨rfl, rfl⟩, fun hn => absurd h3 hn⟩, ?_, ?_⟩
      · rintro ⟨i, hib, hmed, hit⟩
        exact h1 ((hexcl .overdue i hib hmed hit).1 rfl)
      · rintro ⟨i, hib, hmed, hit⟩
        have := ((hexcl .upcoming i hib hmed hit).2.2 rfl).2
        linarith
    · refine ⟨⟨_, hmem _ _ (classify_due_early _ _ _ _ _ h1 h2 h3), rfl, rfl,
        fun hp => absurd hp h3, fun _ => ⟨rfl, rfl⟩⟩, ?_, ?_⟩
      · rintro ⟨i, hib, hmed, hit⟩
        exact h1 ((hexcl .overdue i hib hmed hit).1 rfl)
      · rintro ⟨i, hib, hmed, hit⟩
        have := ((hexcl .upcoming i hib hmed hit).2.2 rfl).2
        linarith
  · refine ⟨⟨_, hmem _ _ (classify_upcoming _ _ _ _ _ h1 h2), rfl, rfl, rfl, rfl⟩, ?_, ?_⟩
    · rintro ⟨i, hib, hmed, hit⟩
      exact h1 ((hexcl .overdue i hib hmed hit).1 rfl)
    · rintro ⟨i, hib, hmed, hit⟩
      have := ((hexcl .due i hib hmed hit).2.1 rfl).2
      exact h2 this

/-- Witness for C1: the spec's own example (Aspirin at 08:00, window 30,
now 08:25) lands in `due` with `minutes_late = 25` and in no other bucket. -/
theorem c1_witness :
    ∃ r cache',
      get_medication_status ⟨[⟨"Aspirin", ["08:00"], none, true⟩], ⟨30⟩⟩ []
          "2026-10-12" 0 505 [] = some (r, cache') ∧
      (∃ i ∈ r.due, i.medication = "Aspirin" ∧ i.time = "08:00" ∧
        i.minutes_late = some 25 ∧ i.minutes_until = none) ∧
      ¬inBucket r.overdue "Aspirin" "08:00" ∧
      ¬inBucket r.upcoming "Aspirin" "08:00" := by
  have hsome : (get_medication_status ⟨[⟨"Aspirin", ["08:00"], none, true⟩], ⟨30⟩⟩ []
      "2026-10-12" 0 505 []).isSome = true := by decide
  obtain ⟨⟨r, cache'⟩, hrc⟩ :
      ∃ rc, get_medication_status ⟨[⟨"Aspirin", ["08:00"], none, true⟩], ⟨30⟩⟩ []
        "2026-10-12" 0 505 [] = some rc := Option.isSome_iff_exists.mp hsome
  have h := c1_status_bucket_priority
    ⟨[⟨"Aspirin", ["08:00"], none, true⟩], ⟨30⟩⟩ [] "2026-10-12" 0 505 []
    ⟨"Aspirin", ["08:00"], none, true⟩ (List.mem_singleton_self _) rfl rfl
    "08:00" (List.mem_singleton_self _) 480 (by decide) rfl
    (fun u hu => Option.noConfusion hu) r cache' hrc
  obtain ⟨⟨i, hi, hmed, hit, hpos, _⟩, hov, hup⟩ :=
    h.2.1 (by norm_num) (by norm_num)
  refine ⟨r, cache', hrc, ⟨i, hi, hmed, hit, ?_, (hpos (by norm_num)).2⟩, hov, hup⟩
  rw [(hpos (by norm_num)).1]
  have h25 : (505 : ℚ) - ((480 : ℕ) : ℚ) = ((25 : ℤ) : ℚ) := by norm_num
  rw [h25, pyInt_intCast]

/-! ### Claim C5 -/

/-- C5: For every (medication, time) pair having a `'taken'` intake record
created today, `get_medication_status` omits that pair from the overdue, due
and upcoming buckets, for every reminder window and however far past the
scheduled time now is. -/
theorem c5_taken_today_excluded
    (cfg : Config) (ledger : List IntakeRecord) (today : String)
    (today_weekday : Nat) (nowMin : ℚ) (cache : SnoozeCache)
    (name t : String)
    (htaken : ∃ rec ∈ ledger, rec.medication = name ∧ rec.scheduled_time = t ∧
      rec.created_date = today ∧ rec.status = "taken")
    (r : StatusReport) (cache' : SnoozeCache)
    (hr : get_medication_status cfg ledger today today_weekday nowMin cache =
      some (r, cache')) :
    ¬inBucket r.overdue name t ∧ ¬inBucket r.due name t ∧
      ¬inBucket r.upcoming name t := by
  have htk : was_taken_today ledger today name t = true :=
    (was_taken_today_iff _ _ _ _).2 htaken
  have main : ∀ b, ¬inBucket (r.bucket b) name t := by
    rintro b ⟨i, hib, hmed, hit⟩
    obtain ⟨m', _, _, _, t', _, s', _, htk', hcl'⟩ :=
      report_mem_spec _ _ _ _ _ _ _ _ _ _ hr hib
    obtain ⟨hmed', hit', _⟩ := classify_spec _ _ _ _ _ _ _ hcl'
    have hname : m'.name = name := by rw [← hmed', hmed]
    have htime : t' = t := by rw [← hit', hit]
    rw [hname, htime, htk] at htk'
    exact Bool.noConfusion htk'
  exact ⟨main .overdue, main .due, main .upcoming⟩

/-- Witness for C5: a pair taken today stays out of all buckets even 520
minutes past its scheduled time. -/
theorem c5_witness :
    ∃ r cache',
      get_medication_status ⟨[⟨"Aspirin", ["08:00"], none, true⟩], ⟨30⟩⟩
          [⟨"Aspirin", "08:00", "08:05:00", "2026-10-12", "taken"⟩]
          "2026-10-12" 0 1000 [] = some (r, cache') ∧
      ¬inBucket r.overdue "Aspirin" "08:00" ∧ ¬inBucket r.due "Aspirin" "08:00" ∧
      ¬inBucket r.upcoming "Aspirin" "08:00" := by
  have hsome : (get_medication_status ⟨[⟨"Aspirin", ["08:00"], none, true⟩], ⟨30⟩⟩
      [⟨"Aspirin", "08:00", "08:05:00", "2026-10-12", "taken"⟩]
      "2026-10-12" 0 1000 []).isSome = true := by decide
  obtain ⟨⟨r, cache'⟩, hrc⟩ := Option.isSome_iff_exists.mp hsome
  have h := c5_taken_today_excluded _ _ _ _ _ _ "Aspirin" "08:00"
    ⟨⟨"Aspirin", "08:00", "08:05:00", "2026-10-12", "taken"⟩,
      List.mem_singleton_self _, rfl, rfl, rfl, rfl⟩ r cache' hrc
  exact ⟨r, cache', hrc, h.1, h.2.1, h.2.2⟩

/-! ### Claim C10 -/

/-- C10: A day token absent from the bilingual weekday table never matches
any weekday: a non-empty days list of only unrecognized tokens is scheduled
on no day at all (not "every day"), so such a medication appears in no
status bucket; an absent or empty days list does mean every day. -/
theorem c10_unrecognized_days
    (l : List String) (hl : l ≠ [])
    (hun : ∀ d ∈ l, cacheGet WEEKDAY_MAP (normalizeDay d) = none) :
    (∀ w, is_scheduled_today (some l) w = false) ∧
    (∀ w, is_scheduled_today none w = true) ∧
    (∀ w, is_scheduled_today (some []) w = true) ∧
    (∀ (cfg : Config) (ledger : List IntakeRecord) (today : String)
       (today_weekday : Nat) (nowMin : ℚ) (cache : SnoozeCache)
       (r : StatusReport) (cache' : SnoozeCache) (name : String),
      (∀ m ∈ cfg.medications, m.name = name → m.days = some l) →
      get_medication_status cfg ledger today today_weekday nowMin cache =
        some (r, cache') →
      ∀ b i, i ∈ r.bucket b → i.medication ≠ name) := by
  have hfalse : ∀ w, is_scheduled_today (some l) w = false := by
    intro w
    have hred : is_scheduled_today (some l) w =
        (if l = [] then true else l.any fun day =>
          match cacheGet WEEKDAY_MAP (normalizeDay day) with
          | some w' => decide (w' = w)
          | none => false) := rfl
    rw [hred, if_neg hl, List.any_eq_false]
    intro d hd
    rw [hun d hd]
    exact Bool.false_ne_true
  refine ⟨hfalse, fun w => rfl, fun w => rfl, ?_⟩
  intro cfg ledger today today_weekday nowMin cache r cache' name hdays hr b i hib hmed
  obtain ⟨m', hm', _, hsch', _, _, _, _, _, hcl'⟩ :=
    report_mem_spec _ _ _ _ _ _ _ _ _ _ hr hib
  obtain ⟨hmed', _⟩ := classify_spec _ _ _ _ _ _ _ hcl'
  have hname : m'.name = name := by rw [← hmed', hmed]
  rw [hdays m' hm' hname, hfalse today_weekday] at hsch'
  exact Bool.noConfusion hsch'

/-- Witness for C10: `days = ["xyz"]` matches no weekday and keeps the
medication out of every bucket, while absent days match. -/
theorem c10_witness :
    is_scheduled_today (some ["xyz"]) 2 = false ∧
    is_scheduled_today none 2 = true ∧
    ∃ r cache',
      get_medication_status ⟨[⟨"Aspirin", ["08:00"], some ["xyz"], true⟩], ⟨30⟩⟩
          [] "2026-10-12" 2 505 [] = some (r, cache') ∧
      ∀ b i, i ∈ r.bucket b → i.medication ≠ "Aspirin" := by
  have h := c10_unrecognized_days ["xyz"] (by decide)
    (fun d hd => by
      rw [List.mem_singleton] at hd
      rw [hd]
      decide)
  have hsome : (get_medication_status
      ⟨[⟨"Aspirin", ["08:00"], some ["xyz"], true⟩], ⟨30⟩⟩
      [] "2026-10-12" 2 505 []).isSome = true := by decide
  obtain ⟨⟨r, cache'⟩, hrc⟩ := Option.isSome_iff_exists.mp hsome
  exact ⟨h.1 2, h.2.1 2, r, cache', hrc,
    h.2.2.2 _ _ _ _ _ _ r cache' "Aspirin"
      (fun m hm _ => by rw [List.mem_singleton] at hm; rw [hm]) hrc⟩

/-! ### Claim C4 -/

/-- C4: After a successful snooze at instant `t₀` stores
`snooze_until = t₀ + 5` minutes, the (medication, time) pair is excluded from
all three status buckets for every classification with `now < snooze_until`,
and for every classification with `now ≥ snooze_until` (equality included)
the pair reappears in its time-based bucket, the expired entry being evicted
by the snooze check. -/
theorem c4_snooze_lifecycle
    (cache₀ : SnoozeCache) (t₀ : ℚ) (medication scheduled_time : String)
    (hv : (validate_medication_input medication scheduled_time).1 = true) :
    snooze_medication cache₀ t₀ medication scheduled_time =
      (.success (t₀ + 5), dictSet cache₀ (medication, scheduled_time) (t₀ + 5)) ∧
    (∀ (cfg : Config) (ledger : List IntakeRecord) (today : String)
       (today_weekday : Nat) (nowMin : ℚ) (r : StatusReport) (cache' : SnoozeCache),
      nowMin < t₀ + 5 →
      get_medication_status cfg ledger today today_weekday nowMin
        (dictSet cache₀ (medication, scheduled_time) (t₀ + 5)) = some (r, cache') →
      (¬inBucket r.overdue medication scheduled_time ∧
       ¬inBucket r.due medication scheduled_time ∧
       ¬inBucket r.upcoming medication scheduled_time) ∧
      cacheGet cache' (medication, scheduled_time) = some (t₀ + 5)) ∧
    (∀ (cfg : Config) (ledger : List IntakeRecord) (today : String)
       (today_weekday : Nat) (nowMin : ℚ) (m : Medication) (s : Nat)
       (r : StatusReport) (cache' : SnoozeCache),
      t₀ + 5 ≤ nowMin →
      m ∈ cfg.medications → m.enabled = true →
      is_scheduled_today m.days today_weekday = true →
      m.name = medication → scheduled_time ∈ m.times →
      parseHM scheduled_time = some s →
      was_taken_today ledger today medication scheduled_time = false →
      get_medication_status cfg ledger today today_weekday nowMin
        (dictSet cache₀ (medication, scheduled_time) (t₀ + 5)) = some (r, cache') →
      (∃ b i, classify cfg.settings.reminder_window nowMin medication
          scheduled_time (s : ℚ) = some (b, i) ∧ i ∈ r.bucket b) ∧
      cacheGet cache' (medication, scheduled_time) = none) := by
  refine ⟨?_, ?_, ?_⟩
  · unfold snooze_medication
    rw [if_neg (by simp [hv])]
  · intro cfg ledger today today_weekday nowMin r cache' hnow hr
    have hu : cacheGet (dictSet cache₀ (medication, scheduled_time) (t₀ + 5))
        (medication, scheduled_time) = some (t₀ + 5) := cacheGet_dictSet_self _ _ _
    obtain ⟨es, hml, hbuck⟩ := get_status_eq _ _ _ _ _ _ _ _ hr
    obtain ⟨hexcl, hkeep⟩ :=
      medsLoop_snoozed_excluded _ _ _ _ _ _ _ _ _ _ _ hu hnow hml
    have main : ∀ b, ¬inBucket (r.bucket b) medication scheduled_time := by
      rintro b ⟨i, hib, hmed, hit⟩
      rw [hbuck b, mem_sortByTime, mem_bucketList] at hib
      exact hexcl b i hib ⟨hmed, hit⟩
    exact ⟨⟨main .overdue, main .due, main .upcoming⟩, hkeep⟩
  · intro cfg ledger today today_weekday nowMin m s r cache' hnow hm hen hsch
      hname ht hp htk hr
    subst hname
    have hinv : noActiveSnooze nowMin
        (dictSet cache₀ (m.name, scheduled_time) (t₀ + 5)) (m.name, scheduled_time) := by
      intro u hu
      rw [cacheGet_dictSet_self] at hu
      injection hu with hu
      rw [← hu]
      exact hnow
    obtain ⟨es, hml, hbuck⟩ := get_status_eq _ _ _ _ _ _ _ _ hr
    obtain ⟨hpres, hev⟩ :=
      medsLoop_present _ _ _ _ _ _ _ _ _ _ _ _ hml hm hen hsch ht hp htk hinv
    obtain ⟨b, i, hcl⟩ := classify_isSome cfg.settings.reminder_window nowMin
      m.name scheduled_time (s : ℚ)
    refine ⟨⟨b, i, hcl, ?_⟩, hev⟩
    rw [hbuck b, mem_sortByTime, mem_bucketList]
    exact hpres b i hcl

/-- Witness for C4: snoozing (Aspirin, 08:00) at 08:00 hides it at 08:04 and
lets it reappear (with the cache entry evicted) at exactly 08:05. -/
theorem c4_witness :
    snooze_medication [] 480 "Aspirin" "08:00" =
      (.success 485, [(("Aspirin", "08:00"), 485)]) ∧
    (∃ r cache',
      get_medication_status ⟨[⟨"Aspirin", ["08:00"], none, true⟩], ⟨3⟩⟩ []
          "2026-10-12" 0 484 [(("Aspirin", "08:00"), 485)] = some (r, cache') ∧
      ¬inBucket r.overdue "Aspirin" "08:00" ∧ ¬inBucket r.due "Aspirin" "08:00" ∧
      ¬inBucket r.upcoming "Aspirin" "08:00" ∧
      cacheGet cache' ("Aspirin", "08:00") = some 485) ∧
    (∃ r cache',
      get_medication_status ⟨[⟨"Aspirin", ["08:00"], none, true⟩], ⟨3⟩⟩ []
          "2026-10-12" 0 485 [(("Aspirin", "08:00"), 485)] = some (r, cache') ∧
      (∃ b i, classify 3 485 "Aspirin" "08:00" ((480 : Nat) : ℚ) = some (b, i) ∧
        i ∈ r.bucket b) ∧
      cacheGet cache' ("Aspirin", "08:00") = none) := by
  have h := c4_snooze_lifecycle [] 480 "Aspirin" "08:00" (by decide)
  have h485 : (480 : ℚ) + 5 = 485 := by norm_num
  have hcache : dictSet ([] : SnoozeCache) ("Aspirin", "08:00") ((480 : ℚ) + 5) =
      [(("Aspirin", "08:00"), 485)] := by rw [h485]; rfl
  refine ⟨?_, ?_, ?_⟩
  · rw [h.1, h485]
    rfl
  · have hsome : (get_medication_status ⟨[⟨"Aspirin", ["08:00"], none, true⟩], ⟨3⟩⟩ []
        "2026-10-12" 0 484 [(("Aspirin", "08:00"), 485)]).isSome = true := by
      decide
    obtain ⟨⟨r, cache'⟩, hrc⟩ := Option.isSome_iff_exists.mp hsome
    have hrc' : get_medication_status ⟨[⟨"Aspirin", ["08:00"], none, true⟩], ⟨3⟩⟩ []
        "2026-10-12" 0 484 (dictSet [] ("Aspirin", "08:00") (480 + 5)) =
        some (r, cache') := by rw [hcache]; exact hrc
    obtain ⟨⟨h1, h2, h3⟩, h4⟩ :=
      h.2.1 _ [] "2026-10-12" 0 484 r cache' (by norm_num) hrc'
    rw [h485] at h4
    exact ⟨r, cache', hrc, h1, h2, h3, h4⟩
  · have hsome : (get_medication_status ⟨[⟨"Aspirin", ["08:00"], none, true⟩], ⟨3⟩⟩ []
        "2026-10-12" 0 485 [(("Aspirin", "08:00"), 485)]).isSome = true := by
      decide
    obtain ⟨⟨r, cache'⟩, hrc⟩ := Option.isSome_iff_exists.mp hsome
    have hrc' : get_medication_status ⟨[⟨"Aspirin", ["08:00"], none, true⟩], ⟨3⟩⟩ []
        "2026-10-12" 0 485 (dictSet [] ("Aspirin", "08:00") (480 + 5)) =
        some (r, cache') := by rw [hcache]; exact hrc
    obtain ⟨hin, hev⟩ := h.2.2 _ [] "2026-10-12" 0 485
      ⟨"Aspirin", ["08:00"], none, true⟩ 480 r cache' (by norm_num)
      (List.mem_singleton_self _) rfl rfl rfl (List.mem_singleton_self _)
      (by decide) rfl hrc'
    exact ⟨r, cache', hrc, hin, hev⟩

/-! ### Case equations for `auth_verify` -/

theorem auth_verify_case_missing (otps : OTPCache) (sessions : SessionCache)
    (now : ℚ) (token email otp : String)
    (hne : ¬(pyLower (pyStrip email) = "" ∨ pyStrip otp = ""))
    (hnone : cacheGet otps (pyLower (pyStrip email)) = none) :
    auth_verify otps sessions now token email otp =
      (.failure "Invalid or expired OTP" 401, otps, sessions) := by
  simp only [auth_verify]
  rw [if_neg hne]
  split
  · rfl
  next stored' hsome =>
    rw [hnone] at hsome
    exact Option.noConfusion hsome

theorem auth_verify_case_expired (otps : OTPCache) (sessions : SessionCache)
    (now : ℚ) (token email otp : String) (stored : OTPEntry)
    (hne : ¬(pyLower (pyStrip email) = "" ∨ pyStrip otp = ""))
    (hstored : cacheGet otps (pyLower (pyStrip email)) = some stored)
    (hexp : now > stored.expires) :
    auth_verify otps sessions now token email otp =
      (.failure "OTP expired" 401, dictDel otps (pyLower (pyStrip email)), sessions) := by
  simp only [auth_verify]
  rw [if_neg hne]
  split
  next hnone => rw [hstored] at hnone; exact Option.noConfusion hnone
  next stored' hsome =>
    rw [hstored] at hsome
    injection hsome with hsome
    subst hsome
    rw [if_pos hexp]

theorem auth_verify_case_toomany (otps : OTPCache) (sessions : SessionCache)
    (now : ℚ) (token email otp : String) (stored : OTPEntry)
    (hne : ¬(pyLower (pyStrip email) = "" ∨ pyStrip otp = ""))
    (hstored : cacheGet otps (pyLower (pyStrip email)) = some stored)
    (hexp : ¬now > stored.expires) (hatt : 3 < stored.attempts + 1) :
    auth_verify otps sessions now token email otp =
      (.failure "Too many attempts" 429, dictDel otps (pyLower (pyStrip email)),
        sessions) := by
  simp only [auth_verify]
  rw [if_neg hne]
  split
  next hnone => rw [hstored] at hnone; exact Option.noConfusion hnone
  next stored' hsome =>
    rw [hstored] at hsome
    injection hsome with hsome
    subst hsome
    rw [if_neg hexp, if_pos hatt]

theorem auth_verify_case_mismatch (otps : OTPCache) (sessions : SessionCache)
    (now : ℚ) (token email otp : String) (stored : OTPEntry)
    (hne : ¬(pyLower (pyStrip email) = "" ∨ pyStrip otp = ""))
    (hstored : cacheGet otps (pyLower (pyStrip email)) = some stored)
    (hexp : ¬now > stored.expires) (hatt : ¬3 < stored.attempts + 1)
    (hmm : pyStrip otp ≠ stored.otp) :
    auth_verify otps sessions now token email otp =
      (.failure "Invalid OTP" 401,
       dictSet otps (pyLower (pyStrip email))
         ⟨stored.otp, stored.expires, stored.attempts + 1⟩,
       sessions) := by
  simp only [auth_verify]
  rw [if_neg hne]
  split
  next hnone => rw [hstored] at hnone; exact Option.noConfusion hnone
  next stored' hsome =>
    rw [hstored] at hsome
    injection hsome with hsome
    subst hsome
    rw [if_neg hexp, if_neg hatt, if_pos hmm]

theorem auth_verify_case_success (otps : OTPCache) (sessions : SessionCache)
    (now : ℚ) (token email otp : String) (stored : OTPEntry)
    (hne : ¬(pyLower (pyStrip email) = "" ∨ pyStrip otp = ""))
    (hstored : cacheGet otps (pyLower (pyStrip email)) = some stored)
    (hexp : ¬now > stored.expires) (hatt : ¬3 < stored.attempts + 1)
    (hok : pyStrip otp = stored.otp) :
    auth_verify otps sessions now token email otp =
      (.success (pyLower (pyStrip email)), dictDel otps (pyLower (pyStrip email)),
       create_session sessions now token (pyLower (pyStrip email))) := by
  simp only [auth_verify]
  rw [if_neg hne]
  split
  next hnone => rw [hstored] at hnone; exact Option.noConfusion hnone
  next stored' hsome =>
    rw [hstored] at hsome
    injection hsome with hsome
    subst hsome
    rw [if_neg hexp, if_neg hatt, if_neg (not_not_intro hok)]

/-! ### Claim C2 -/

/-- C2: Against a stored, non-expired OTP entry, the attempt count is
incremented on every call before the code is compared; the fourth attempt on
the same entry (correct code or not) returns too-many-attempts and deletes
the entry; a mismatching earlier attempt rejects while retaining the entry
with the incremented count; an exact match deletes the entry (one-shot) and
creates a session. -/
theorem c2_otp_verify_attempt_lifecycle
    (otps : OTPCache) (sessions : SessionCache) (now : ℚ) (token : String)
    (email otp : String) (stored : OTPEntry)
    (hemail_norm : pyLower (pyStrip email) = email) (hemail_ne : email ≠ "")
    (hotp_norm : pyStrip otp = otp) (hotp_ne : otp ≠ "")
    (hstored : cacheGet otps email = some stored)
    (hexp : ¬now > stored.expires) :
    (3 ≤ stored.attempts →
      auth_verify otps sessions now token email otp =
        (.failure "Too many attempts" 429, dictDel otps email, sessions) ∧
      cacheGet (dictDel otps email) email = none) ∧
    (stored.attempts < 3 → otp ≠ stored.otp →
      auth_verify otps sessions now token email otp =
        (.failure "Invalid OTP" 401,
         dictSet otps email ⟨stored.otp, stored.expires, stored.attempts + 1⟩,
         sessions) ∧
      cacheGet (dictSet otps email ⟨stored.otp, stored.expires, stored.attempts + 1⟩)
          email = some ⟨stored.otp, stored.expires, stored.attempts + 1⟩) ∧
    (stored.attempts < 3 → otp = stored.otp →
      auth_verify otps sessions now token email otp =
        (.success email, dictDel otps email,
         dictSet sessions token ⟨email, now + (SESSION_EXPIRY_DAYS : ℚ) * 24 * 60⟩) ∧
      cacheGet (dictDel otps email) email = none) ∧
    (∀ w1 w2 w3 otp4 : String,
      stored.attempts = 0 →
      pyStrip w1 = w1 → w1 ≠ "" → w1 ≠ stored.otp →
      pyStrip w2 = w2 → w2 ≠ "" → w2 ≠ stored.otp →
      pyStrip w3 = w3 → w3 ≠ "" → w3 ≠ stored.otp →
      pyStrip otp4 = otp4 → otp4 ≠ "" →
      (let a1 := auth_verify otps sessions now token email w1
       let a2 := auth_verify a1.2.1 a1.2.2 now token email w2
       let a3 := auth_verify a2.2.1 a2.2.2 now token email w3
       let a4 := auth_verify a3.2.1 a3.2.2 now token email otp4
       a1.1 = .failure "Invalid OTP" 401 ∧
       a2.1 = .failure "Invalid OTP" 401 ∧
       a3.1 = .failure "Invalid OTP" 401 ∧
       a4.1 = .failure "Too many attempts" 429 ∧
       cacheGet a4.2.1 email = none)) := by
  have hne0 : ∀ w : String, pyStrip w = w → w ≠ "" →
      ¬(pyLower (pyStrip email) = "" ∨ pyStrip w = "") := by
    intro w hw hwne
    rw [hemail_norm, hw]
    exact not_or.2 ⟨hemail_ne, hwne⟩
  have hstored' : cacheGet otps (pyLower (pyStrip email)) = some stored := by
    rw [hemail_norm]
    exact hstored
  refine ⟨fun h3 => ?_, fun hlt hne => ?_, fun hlt hok => ?_, ?_⟩
  · have e := auth_verify_case_toomany otps sessions now token email otp stored
      (hne0 otp hotp_norm hotp_ne) hstored' hexp (by omega)
    rw [hemail_norm] at e
    exact ⟨e, cacheGet_dictDel_self _ _⟩
  · have e := auth_verify_case_mismatch otps sessions now token email otp stored
      (hne0 otp hotp_norm hotp_ne) hstored' hexp (by omega)
      (by rw [hotp_norm]; exact hne)
    rw [hemail_norm] at e
    exact ⟨e, cacheGet_dictSet_self _ _ _⟩
  · have e := auth_verify_case_success otps sessions now token email otp stored
      (hne0 otp hotp_norm hotp_ne) hstored' hexp (by omega)
      (by rw [hotp_norm]; exact hok)
    rw [hemail_norm] at e
    unfold create_session at e
    exact ⟨e, cacheGet_dictDel_self _ _⟩
  · intro w1 w2 w3 otp4 h0 hw1n hw1e hw1c hw2n hw2e hw2c hw3n hw3e hw3c hw4n hw4e
    obtain ⟨c, x, a⟩ := stored
    simp only at h0
    subst h0
    have e1 := auth_verify_case_mismatch otps sessions now token email w1 ⟨c, x, 0⟩
      (hne0 w1 hw1n hw1e) hstored' hexp (by show ¬3 < 0 + 1; decide)
      (by rw [hw1n]; exact hw1c)
    rw [hemail_norm] at e1
    have e2 := auth_verify_case_mismatch (dictSet otps email ⟨c, x, 1⟩) sessions now
      token email w2 ⟨c, x, 1⟩ (hne0 w2 hw2n hw2e)
      (by rw [hemail_norm]; exact cacheGet_dictSet_self _ _ _) hexp
      (by show ¬3 < 1 + 1; decide) (by rw [hw2n]; exact hw2c)
    rw [hemail_norm] at e2
    have e3 := auth_verify_case_mismatch
      (dictSet (dictSet otps email ⟨c, x, 1⟩) email ⟨c, x, 2⟩) sessions now
      token email w3 ⟨c, x, 2⟩ (hne0 w3 hw3n hw3e)
      (by rw [hemail_norm]; exact cacheGet_dictSet_self _ _ _) hexp
      (by show ¬3 < 2 + 1; decide) (by rw [hw3n]; exact hw3c)
    rw [hemail_norm] at e3
    have e4 := auth_verify_case_toomany
      (dictSet (dictSet (dictSet otps email ⟨c, x, 1⟩) email ⟨c, x, 2⟩) email ⟨c, x, 3⟩)
      sessions now token email otp4 ⟨c, x, 3⟩ (hne0 otp4 hw4n hw4e)
      (by rw [hemail_norm]; exact cacheGet_dictSet_self _ _ _) hexp
      (by show 3 < 3 + 1; decide)
    rw [hemail_norm] at e4
    simp only [e1, e2, e3, e4]
    exact ⟨trivial, trivial, trivial, trivial, cacheGet_dictDel_self _ _⟩

/-- Witness for C2: three wrong codes then a fourth call with the correct
code still yields too-many-attempts and deletes the entry; with spare
attempts the correct code succeeds. -/
theorem c2_witness :
    (let a1 := auth_verify [("user@example.com", ⟨"123456", 10, 0⟩)] [] 0 "tok"
        "user@example.com" "000000"
     let a2 := auth_verify a1.2.1 a1.2.2 0 "tok" "user@example.com" "111111"
     let a3 := auth_verify a2.2.1 a2.2.2 0 "tok" "user@example.com" "222222"
     let a4 := auth_verify a3.2.1 a3.2.2 0 "tok" "user@example.com" "123456"
     a1.1 = .failure "Invalid OTP" 401 ∧ a2.1 = .failure "Invalid OTP" 401 ∧
     a3.1 = .failure "Invalid OTP" 401 ∧ a4.1 = .failure "Too many attempts" 429 ∧
     cacheGet a4.2.1 "user@example.com" = none) ∧
    (auth_verify [("user@example.com", ⟨"123456", 10, 2⟩)] [] 0 "tok"
        "user@example.com" "123456").1 = .success "user@example.com" := by
  refine ⟨?_, ?_⟩
  · exact (c2_otp_verify_attempt_lifecycle
      [("user@example.com", ⟨"123456", 10, 0⟩)] [] 0 "tok" "user@example.com" "123456"
      ⟨"123456", 10, 0⟩ (by decide) (by decide) (by decide) (by decide) (by decide)
      (by decide)).2.2.2 "000000" "111111" "222222" "123456" rfl
      (by decide) (by decide) (by decide) (by decide) (by decide) (by decide)
      (by decide) (by decide) (by decide) (by decide) (by decide)
  · have h := (c2_otp_verify_attempt_lifecycle
      [("user@example.com", ⟨"123456", 10, 2⟩)] [] 0 "tok" "user@example.com" "123456"
      ⟨"123456", 10, 2⟩ (by decide) (by decide) (by decide) (by decide) (by decide)
      (by decide)).2.2.1 (by decide) rfl
    rw [h.1]

/-! ### Claim C7 -/

/-- C7: `confirm_intake` for a (medication, time) pair already recorded as
taken today returns the duplicate result and leaves the intake ledger
unchanged; for a valid pair not yet taken today it appends exactly one new
`'taken'` record. -/
theorem c7_confirm_intake_duplicate
    (ledger : List IntakeRecord)
    (today actual_time medication scheduled_time : String)
    (hv : (validate_medication_input medication scheduled_time).1 = true) :
    (was_taken_today ledger today medication scheduled_time = true →
      confirm_intake ledger today actual_time medication scheduled_time =
        (.duplicate, ledger)) ∧
    (was_taken_today ledger today medication scheduled_time = false →
      confirm_intake ledger today actual_time medication scheduled_time =
        (.success medication scheduled_time actual_time,
         ledger ++ [⟨medication, scheduled_time, actual_time, today, "taken"⟩])) := by
  constructor
  · intro htk
    unfold confirm_intake
    rw [if_neg (by simp [hv]), if_pos htk]
  · intro htk
    unfold confirm_intake
    rw [if_neg (by simp [hv]), if_neg (by simp [htk])]

/-- Witness for C7: a fresh confirmation appends one row; repeating it
returns duplicate and leaves the ledger unchanged. -/
theorem c7_witness :
    confirm_intake [] "2026-10-12" "08:05:00" "Aspirin" "08:00" =
      (.success "Aspirin" "08:00" "08:05:00",
       [⟨"Aspirin", "08:00", "08:05:00", "2026-10-12", "taken"⟩]) ∧
    confirm_intake [⟨"Aspirin", "08:00", "08:05:00", "2026-10-12", "taken"⟩]
        "2026-10-12" "09:00:00" "Aspirin" "08:00" =
      (.duplicate, [⟨"Aspirin", "08:00", "08:05:00", "2026-10-12", "taken"⟩]) := by
  constructor
  · have h := (c7_confirm_intake_duplicate [] "2026-10-12" "08:05:00" "Aspirin"
      "08:00" (by decide)).2 (by decide)
    rw [h]
    rfl
  · exact (c7_confirm_intake_duplicate
      [⟨"Aspirin", "08:00", "08:05:00", "2026-10-12", "taken"⟩] "2026-10-12"
      "09:00:00" "Aspirin" "08:00" (by decide)).1 (by decide)

/-! ### Claim C9 (corrected) -/

/-- Counterexample to C9 as stated: the missing-entry rejection
(`Invalid or expired OTP`) and the expired-entry rejection (`OTP expired`)
carry different messages, so the two sub-cases are distinguishable to the
caller. -/
theorem c9_counterexample :
    (auth_verify [] [] 2 "tok" "user@example.com" "123456").1 =
      .failure "Invalid or expired OTP" 401 ∧
    (auth_verify [("user@example.com", ⟨"123456", 1, 0⟩)] [] 2 "tok"
        "user@example.com" "123456").1 = .failure "OTP expired" 401 ∧
    (auth_verify [] [] 2 "tok" "user@example.com" "123456").1 ≠
      (auth_verify [("user@example.com", ⟨"123456", 1, 0⟩)] [] 2 "tok"
        "user@example.com" "123456").1 := by
  decide

/-- C9 (amended): `auth_verify` rejects a call with no stored entry with
`Invalid or expired OTP` and a call whose stored entry has expired with
`OTP expired`, both with status 401; the expired entry is deleted on that
access.  The two sub-cases share the status code but differ in the error
message, so they are distinguishable by the response body. -/
theorem c9_missing_or_expired
    (otps : OTPCache) (sessions : SessionCache) (now : ℚ) (token : String)
    (email otp : String)
    (hemail_norm : pyLower (pyStrip email) = email) (hemail_ne : email ≠ "")
    (hotp_norm : pyStrip otp = otp) (hotp_ne : otp ≠ "") :
    (cacheGet otps email = none →
      auth_verify otps sessions now token email otp =
        (.failure "Invalid or expired OTP" 401, otps, sessions)) ∧
    (∀ stored : OTPEntry, cacheGet otps email = some stored →
      now > stored.expires →
      auth_verify otps sessions now token email otp =
        (.failure "OTP expired" 401, dictDel otps email, sessions) ∧
      cacheGet (dictDel otps email) email = none) ∧
    (VerifyResult.failure "Invalid or expired OTP" 401 ≠
      VerifyResult.failure "OTP expired" 401) := by
  have hne : ¬(pyLower (pyStrip email) = "" ∨ pyStrip otp = "") := by
    rw [hemail_norm, hotp_norm]
    exact not_or.2 ⟨hemail_ne, hotp_ne⟩
  refine ⟨fun hnone => ?_, fun stored hstored hexp => ?_, by decide⟩
  · have e := auth_verify_case_missing otps sessions now token email otp hne
      (by rw [hemail_norm]; exact hnone)
    exact e
  · have e := auth_verify_case_expired otps sessions now token email otp stored hne
      (by rw [hemail_norm]; exact hstored) hexp
    rw [hemail_norm] at e
    exact ⟨e, cacheGet_dictDel_self _ _⟩

/-- Witness for C9 (amended): a call with empty cache and a call on an
expired entry produce the stated rejections, the expired entry evicted. -/
theorem c9_witness :
    auth_verify [] [] 2 "tok" "user@example.com" "123456" =
      (.failure "Invalid or expired OTP" 401, [], []) ∧
    auth_verify [("user@example.com", ⟨"123456", 1, 0⟩)] [] 2 "tok"
        "user@example.com" "123456" =
      (.failure "OTP expired" 401,
       dictDel [("user@example.com", ⟨"123456", 1, 0⟩)] "user@example.com", []) ∧
    cacheGet (dictDel [("user@example.com", (⟨"123456", 1, 0⟩ : OTPEntry))]
      "user@example.com") "user@example.com" = none := by
  have h1 := (c9_missing_or_expired [] [] 2 "tok" "user@example.com" "123456"
    (by decide) (by decide) (by decide) (by decide)).1 rfl
  have h2 := (c9_missing_or_expired [("user@example.com", ⟨"123456", 1, 0⟩)] [] 2
    "tok" "user@example.com" "123456"
    (by decide) (by decide) (by decide) (by decide)).2.1
    ⟨"123456", 1, 0⟩ (by decide) (by norm_num)
  exact ⟨h1, h2.1, h2.2⟩

/-! ### Claim C6 (corrected) -/

/-- Counterexample to C6 as stated: the response for an allow-listed email
(`OTP sent`) differs from the response for a non-allow-listed one
(`If email is registered, OTP was sent`), so allow-list membership is
observable via the response body, not only via the stored entry. -/
theorem c6_counterexample :
    (auth_request [] [] ["user@example.com"] 0 "1.2.3.4" "user@example.com"
        "111111" true).1 = .success "OTP sent" ∧
    (auth_request [] [] ["user@example.com"] 0 "1.2.3.4" "other@example.com"
        "111111" true).1 = .success "If email is registered, OTP was sent" ∧
    (auth_request [] [] ["user@example.com"] 0 "1.2.3.4" "user@example.com"
        "111111" true).1 ≠
      (auth_request [] [] ["user@example.com"] 0 "1.2.3.4" "other@example.com"
        "111111" true).1 := by
  decide

/-- C6 (amended): `auth_request` with a non-allow-listed email (and not
rate-limited) returns a success response with message
`If email is registered, OTP was sent` and leaves the OTP cache unchanged —
no entry is created for that email; however, the allow-listed path responds
`OTP sent` (or a send failure), so membership is also observable from the
response message. -/
theorem c6_nonallowlisted_request
    (rates : RateLimitCache) (otps : OTPCache) (whitelist : List String)
    (now : ℚ) (ip email new_otp : String) (send_ok : Bool)
    (rates' : RateLimitCache)
    (hrl : check_rate_limit rates now ip = (true, rates'))
    (hemail_norm : pyLower (pyStrip email) = email) (hemail_ne : email ≠ "") :
    (is_email_allowed whitelist email = false →
      auth_request rates otps whitelist now ip email new_otp send_ok =
        (.success "If email is registered, OTP was sent", rates', otps)) ∧
    (is_email_allowed whitelist email = true → send_ok = true →
      auth_request rates otps whitelist now ip email new_otp send_ok =
        (.success "OTP sent", rates',
         dictSet otps email ⟨new_otp, now + OTP_EXPIRY_MINUTES, 0⟩)) ∧
    (RequestResult.success "If email is registered, OTP was sent" ≠
      RequestResult.success "OTP sent") := by
  refine ⟨fun hallow => ?_, fun hallow hsend => ?_, by decide⟩
  · simp only [auth_request]
    split
    next rs heq =>
      rw [hrl] at heq
      exact absurd (congrArg Prod.fst heq) (by simp)
    next rs heq =>
      rw [hrl] at heq
      injection heq with _ heq2
      subst heq2
      rw [hemail_norm, if_neg hemail_ne, if_neg (by simp [hallow])]
  · simp only [auth_request]
    split
    next rs heq =>
      rw [hrl] at heq
      exact absurd (congrArg Prod.fst heq) (by simp)
    next rs heq =>
      rw [hrl] at heq
      injection heq with _ heq2
      subst heq2
      rw [hemail_norm, if_neg hemail_ne, if_pos hallow, if_pos hsend]

/-- Witness for C6 (amended): concrete non-allow-listed request returning the
generic success and leaving the OTP cache empty. -/
theorem c6_witness :
    auth_request [] [] ["user@example.com"] 0 "1.2.3.4" "other@example.com"
        "111111" true =
      (.success "If email is registered, OTP was sent",
       dictSet [] "1.2.3.4" ⟨1, 0 + RATE_LIMIT_WINDOW⟩, []) := by
  exact (c6_nonallowlisted_request [] [] ["user@example.com"] 0 "1.2.3.4"
    "other@example.com" "111111" true
    (dictSet [] "1.2.3.4" ⟨1, 0 + RATE_LIMIT_WINDOW⟩) rfl
    (by decide) (by decide)).1 (by decide)

/-! ### Case equations for `check_rate_limit` -/

theorem check_rate_limit_fresh (cache : RateLimitCache) (now : ℚ) (ip : String)
    (h : cacheGet cache ip = none) :
    check_rate_limit cache now ip =
      (true, dictSet cache ip ⟨1, now + RATE_LIMIT_WINDOW⟩) := by
  simp only [check_rate_limit]
  split
  · rfl
  next entry hsome =>
    rw [h] at hsome
    exact Option.noConfusion hsome

theorem check_rate_limit_reset (cache : RateLimitCache) (now : ℚ) (ip : String)
    (entry : RateLimitEntry) (h : cacheGet cache ip = some entry)
    (hgt : now > entry.reset_time) :
    check_rate_limit cache now ip =
      (true, dictSet cache ip ⟨1, now + RATE_LIMIT_WINDOW⟩) := by
  simp only [check_rate_limit]
  split
  next hnone => exact Option.noConfusion (h.symm.trans hnone)
  next entry' hsome =>
    rw [h] at hsome
    injection hsome with hsome
    subst hsome
    rw [if_pos hgt]

theorem check_rate_limit_incr_ok (cache : RateLimitCache) (now : ℚ) (ip : String)
    (entry : RateLimitEntry) (h : cacheGet cache ip = some entry)
    (hle : ¬now > entry.reset_time) (hcnt : ¬entry.count + 1 > RATE_LIMIT_REQUESTS) :
    check_rate_limit cache now ip =
      (true, dictSet cache ip ⟨entry.count + 1, entry.reset_time⟩) := by
  simp only [check_rate_limit]
  split
  next hnone => exact Option.noConfusion (h.symm.trans hnone)
  next entry' hsome =>
    rw [h] at hsome
    injection hsome with hsome
    subst hsome
    rw [if_neg hle, if_neg hcnt]

theorem check_rate_limit_incr_blocked (cache : RateLimitCache) (now : ℚ)
    (ip : String) (entry : RateLimitEntry) (h : cacheGet cache ip = some entry)
    (hle : ¬now > entry.reset_time) (hcnt : entry.count + 1 > RATE_LIMIT_REQUESTS) :
    check_rate_limit cache now ip =
      (false, dictSet cache ip ⟨entry.count + 1, entry.reset_time⟩) := by
  simp only [check_rate_limit]
  split
  next hnone => exact Option.noConfusion (h.symm.trans hnone)
  next entry' hsome =>
    rw [h] at hsome
    injection hsome with hsome
    subst hsome
    rw [if_neg hle, if_pos hcnt]

/-! ### Claim C3 -/

/-- C3: From a fresh state, the first five OTP-request calls within a
5-minute window pass the rate limiter and the 6th within that window is
rejected; and on the first call with `now` strictly past the window's reset
time, the request is allowed and the counter resets to 1 with a fresh
5-minute window. -/
theorem c3_rate_limit_window (cache : RateLimitCache) (ip : String) :
    (∀ (now : ℚ) (entry : RateLimitEntry), cacheGet cache ip = some entry →
      now > entry.reset_time →
      check_rate_limit cache now ip =
        (true, dictSet cache ip ⟨1, now + RATE_LIMIT_WINDOW⟩)) ∧
    (∀ t1 t2 t3 t4 t5 t6 : ℚ,
      cacheGet cache ip = none →
      t2 ≤ t1 + RATE_LIMIT_WINDOW → t3 ≤ t1 + RATE_LIMIT_WINDOW →
      t4 ≤ t1 + RATE_LIMIT_WINDOW → t5 ≤ t1 + RATE_LIMIT_WINDOW →
      t6 ≤ t1 + RATE_LIMIT_WINDOW →
      (let r1 := check_rate_limit cache t1 ip
       let r2 := check_rate_limit r1.2 t2 ip
       let r3 := check_rate_limit r2.2 t3 ip
       let r4 := check_rate_limit r3.2 t4 ip
       let r5 := check_rate_limit r4.2 t5 ip
       let r6 := check_rate_limit r5.2 t6 ip
       r1.1 = true ∧ r2.1 = true ∧ r3.1 = true ∧ r4.1 = true ∧ r5.1 = true ∧
       r6.1 = false ∧
       cacheGet r6.2 ip = some ⟨6, t1 + RATE_LIMIT_WINDOW⟩)) := by
  constructor
  · intro now entry h hgt
    exact check_rate_limit_reset cache now ip entry h hgt
  · intro t1 t2 t3 t4 t5 t6 hfresh h2 h3 h4 h5 h6
    have e1 := check_rate_limit_fresh cache t1 ip hfresh
    have e2 := check_rate_limit_incr_ok (dictSet cache ip ⟨1, t1 + RATE_LIMIT_WINDOW⟩)
      t2 ip ⟨1, t1 + RATE_LIMIT_WINDOW⟩ (cacheGet_dictSet_self _ _ _)
      (not_lt.2 h2) (by show ¬1 + 1 > RATE_LIMIT_REQUESTS; decide)
    have e3 := check_rate_limit_incr_ok
      (dictSet (dictSet cache ip ⟨1, t1 + RATE_LIMIT_WINDOW⟩) ip
        ⟨2, t1 + RATE_LIMIT_WINDOW⟩)
      t3 ip ⟨2, t1 + RATE_LIMIT_WINDOW⟩ (cacheGet_dictSet_self _ _ _)
      (not_lt.2 h3) (by show ¬2 + 1 > RATE_LIMIT_REQUESTS; decide)
    have e4 := check_rate_limit_incr_ok
      (dictSet (dictSet (dictSet cache ip ⟨1, t1 + RATE_LIMIT_WINDOW⟩) ip
        ⟨2, t1 + RATE_LIMIT_WINDOW⟩) ip ⟨3, t1 + RATE_LIMIT_WINDOW⟩)
      t4 ip ⟨3, t1 + RATE_LIMIT_WINDOW⟩ (cacheGet_dictSet_self _ _ _)
      (not_lt.2 h4) (by show ¬3 + 1 > RATE_LIMIT_REQUESTS; decide)
    have e5 := check_rate_limit_incr_ok
      (dictSet (dictSet (dictSet (dictSet cache ip ⟨1, t1 + RATE_LIMIT_WINDOW⟩) ip
        ⟨2, t1 + RATE_LIMIT_WINDOW⟩) ip ⟨3, t1 + RATE_LIMIT_WINDOW⟩) ip
        ⟨4, t1 + RATE_LIMIT_WINDOW⟩)
      t5 ip ⟨4, t1 + RATE_LIMIT_WINDOW⟩ (cacheGet_dictSet_self _ _ _)
      (not_lt.2 h5) (by show ¬4 + 1 > RATE_LIMIT_REQUESTS; decide)
    have e6 := check_rate_limit_incr_blocked
      (dictSet (dictSet (dictSet (dictSet (dictSet cache ip
        ⟨1, t1 + RATE_LIMIT_WINDOW⟩) ip ⟨2, t1 + RATE_LIMIT_WINDOW⟩) ip
        ⟨3, t1 + RATE_LIMIT_WINDOW⟩) ip ⟨4, t1 + RATE_LIMIT_WINDOW⟩) ip
        ⟨5, t1 + RATE_LIMIT_WINDOW⟩)
      t6 ip ⟨5, t1 + RATE_LIMIT_WINDOW⟩ (cacheGet_dictSet_self _ _ _)
      (not_lt.2 h6) (by show 5 + 1 > RATE_LIMIT_REQUESTS; decide)
    simp only [e1, e2, e3, e4, e5, e6, cacheGet_dictSet_self, and_self]

/-- Witness for C3: six calls at minutes 0..5 from one IP — five allowed,
the sixth blocked; and a call past the reset time is allowed again with
count 1. -/
theorem c3_witness :
    (let r1 := check_rate_limit [] 0 "1.2.3.4"
     let r2 := check_rate_limit r1.2 1 "1.2.3.4"
     let r3 := check_rate_limit r2.2 2 "1.2.3.4"
     let r4 := check_rate_limit r3.2 3 "1.2.3.4"
     let r5 := check_rate_limit r4.2 4 "1.2.3.4"
     let r6 := check_rate_limit r5.2 5 "1.2.3.4"
     r1.1 = true ∧ r2.1 = true ∧ r3.1 = true ∧ r4.1 = true ∧ r5.1 = true ∧
     r6.1 = false ∧
     cacheGet r6.2 "1.2.3.4" = some ⟨6, 0 + RATE_LIMIT_WINDOW⟩) ∧
    check_rate_limit [("1.2.3.4", ⟨6, 10⟩)] 11 "1.2.3.4" =
      (true, dictSet [("1.2.3.4", ⟨6, 10⟩)] "1.2.3.4" ⟨1, 11 + RATE_LIMIT_WINDOW⟩) := by
  constructor
  · exact (c3_rate_limit_window [] "1.2.3.4").2 0 1 2 3 4 5 rfl
      (by norm_num [RATE_LIMIT_WINDOW]) (by norm_num [RATE_LIMIT_WINDOW])
      (by norm_num [RATE_LIMIT_WINDOW]) (by norm_num [RATE_LIMIT_WINDOW])
      (by norm_num [RATE_LIMIT_WINDOW])
  · exact (c3_rate_limit_window [("1.2.3.4", ⟨6, 10⟩)] "1.2.3.4").1 11 ⟨6, 10⟩
      (by decide) (by norm_num)

/-! ### Claim C8 (corrected) -/

/-- Every strictly formatted `HH:MM` string is accepted by the validation
regex. -/
theorem timeRegex_accepts_pad2 :
    ∀ h < 24, ∀ m < 60, timeRegexMatch (pad2 h ++ ":" ++ pad2 m) = true := by
  decide

/-- Counterexample to C8 as stated: `"08:30\n"` is not an `HH:MM` string
(it carries a trailing newline), yet the validation accepts it, because
Python's `re` lets `$` match just before a final newline. -/
theorem c8_counterexample :
    (validate_medication_input "Aspirin" "08:30\n").1 = true ∧
    strictHHMM "08:30\n" = false := by
  decide

/-- C8 (amended): Snooze and ConfirmIntake reject a request, before any state
mutation, exactly when the medication name is empty or longer than 100
characters or the time string fails the validation regex
`^([01]?[0-9]|2[0-3]):[0-5][0-9]$` (which accepts every strict `HH:MM` with
hour 0-23 and minute 0-59, but also one-digit hours and a single trailing
newline); every input passing these checks is accepted by the validation and
processed. -/
theorem c8_validation_gate
    (medication scheduled_time : String) (cache : SnoozeCache) (now : ℚ)
    (ledger : List IntakeRecord) (today actual_time : String) :
    ((validate_medication_input medication scheduled_time).1 = true ↔
      medication ≠ "" ∧ medication.length ≤ 100 ∧
        timeRegexMatch scheduled_time = true) ∧
    (strictHHMM scheduled_time = true → timeRegexMatch scheduled_time = true) ∧
    ((validate_medication_input medication scheduled_time).1 = false →
      (∃ msg, snooze_medication cache now medication scheduled_time =
        (.failure msg 400, cache)) ∧
      (∃ msg, confirm_intake ledger today actual_time medication scheduled_time =
        (.failure msg 400, ledger))) ∧
    ((validate_medication_input medication scheduled_time).1 = true →
      snooze_medication cache now medication scheduled_time =
        (.success (now + 5), dictSet cache (medication, scheduled_time) (now + 5))) := by
  refine ⟨?_, ?_, fun hv => ?_, fun hv => ?_⟩
  · unfold validate_medication_input
    by_cases h1 : medication = ""
    · rw [if_pos h1]
      simp [h1]
    · rw [if_neg h1]
      by_cases h2 : 100 < medication.length
      · rw [if_pos h2]
        simp only [Bool.false_eq_true, false_iff]
        rintro ⟨_, hle, _⟩
        omega
      · rw [if_neg h2]
        by_cases h3 : scheduled_time = ""
        · rw [if_pos h3]
          simp only [Bool.false_eq_true, false_iff]
          rintro ⟨_, _, hm⟩
          rw [h3] at hm
          exact absurd hm (by decide)
        · rw [if_neg h3]
          by_cases h4 : timeRegexMatch scheduled_time
          · rw [if_pos h4]
            simp only [true_iff]
            exact ⟨h1, by omega, h4⟩
          · rw [if_neg h4]
            simp only [Bool.false_eq_true, false_iff]
            rintro ⟨_, _, hm⟩
            exact h4 hm
  · intro hs
    unfold strictHHMM at hs
    rw [List.any_eq_true] at hs
    obtain ⟨h, hh, hs⟩ := hs
    rw [List.any_eq_true] at hs
    obtain ⟨m, hm, hs⟩ := hs
    rw [List.mem_range] at hh
    rw [List.mem_range] at hm
    rw [eq_of_beq hs]
    exact timeRegex_accepts_pad2 h hh m hm
  · constructor
    · unfold snooze_medication
      rw [if_pos hv]
      exact ⟨_, rfl⟩
    · unfold confirm_intake
      rw [if_pos hv]
      exact ⟨_, rfl⟩
  · unfold snooze_medication
    rw [if_neg (by simp [hv])]

/-- Witness for C8 (amended): `"08:30"` passes and is processed; the empty
medication name is rejected with no cache mutation. -/
theorem c8_witness :
    (validate_medication_input "Aspirin" "08:30").1 = true ∧
    timeRegexMatch "08:30" = true ∧
    snooze_medication [] 0 "Aspirin" "08:30" =
      (.success (0 + 5), dictSet [] ("Aspirin", "08:30") (0 + 5)) ∧
    (∃ msg, snooze_medication [] 0 "" "08:30" = (.failure msg 400, [])) := by
  have h1 := c8_validation_gate "Aspirin" "08:30" [] 0 [] "2026-10-12" "08:31:00"
  have h2 := c8_validation_gate "" "08:30" [] 0 [] "2026-10-12" "08:31:00"
  refine ⟨?_, ?_, ?_, ?_⟩
  · exact h1.1.2 ⟨by decide, by decide, by decide⟩
  · exact (h1.1.1 (by decide)).2.2
  · exact h1.2.2.2 (by decide)
  · exact (h2.2.2.1 (by decide)).1

end Reminder
